import Mathlib

/-!
Verification of the call-record reconstruction core of the Voice Workflow
Builder backend (`app/main.py`, `app/storage.py`).

The embedding models the Python values that flow through
`_build_call_record` and its helpers:

* `PyVal` is the sum of value shapes `json.loads` can produce
  (`None`/JSON null, booleans, numbers, strings, lists, dicts).
  Python `int` and `float` are both modelled as `Rat`; this is exact for
  equality/comparison/truncation as used by the code (no float rounding is
  exercised by the modelled paths).  `NaN`/`Infinity` literals and number
  underscores are not modelled.
* `parsePayload` models `_parse_payload` (i.e. `json.loads` wrapped so that
  falsy input and parse errors give `none`).  The parser follows Python's
  `json` module: strict number grammar, the eight standard escapes plus
  `\uXXXX` with surrogate pairing (a lone surrogate is unrepresentable in a
  Lean `Char` and degrades to `Char.ofNat`'s default), whitespace
  `' ' '\t' '\n' '\r'`, rejection of unescaped control characters, and a
  trailing-garbage check.  Unicode-aware `str.lower`/`str.strip` beyond
  ASCII is not modelled.
* Code that can raise (attribute errors on `.get` of a non-dict, iterating
  a number, sqlite parameter binding errors) is modelled in `Except Unit`.
-/

/-- A Python value as produced by `json.loads` (plus Python `None`, which the
code conflates with JSON null throughout). -/
inductive PyVal where
  | null
  | bool (b : Bool)
  | num (q : Rat)
  | str (s : String)
  | list (xs : List PyVal)
  | dict (fields : List (String × PyVal))

mutual

/-- A computable size of a `PyVal` (characters count; used as recursion fuel
for `_first_reasoning`, whose nesting depth it always dominates). -/
def pvSize : PyVal → Nat
  | .null => 1
  | .bool _ => 1
  | .num _ => 1
  | .str s => s.length + 1
  | .list xs => pvSizeList xs + 1
  | .dict d => pvSizeDict d + 1

/-- Size of a list of values. -/
def pvSizeList : List PyVal → Nat
  | [] => 1
  | v :: rest => pvSize v + pvSizeList rest

/-- Size of a dict's fields. -/
def pvSizeDict : List (String × PyVal) → Nat
  | [] => 1
  | (_, v) :: rest => pvSize v + pvSizeDict rest + 1

end

mutual

/-- Structural boolean equality on `PyVal` (the nested inductive prevents
`deriving DecidableEq`). -/
def pvBEq : PyVal → PyVal → Bool
  | .null, .null => true
  | .bool a, .bool b => a == b
  | .num a, .num b => a == b
  | .str a, .str b => a == b
  | .list a, .list b => pvBEqList a b
  | .dict a, .dict b => pvBEqDict a b
  | _, _ => false

/-- Elementwise `pvBEq` on lists. -/
def pvBEqList : List PyVal → List PyVal → Bool
  | [], [] => true
  | a :: as, b :: bs => pvBEq a b && pvBEqList as bs
  | _, _ => false

/-- Elementwise `pvBEq` on dict fields. -/
def pvBEqDict : List (String × PyVal) → List (String × PyVal) → Bool
  | [], [] => true
  | (k1, v1) :: as, (k2, v2) :: bs => k1 == k2 && pvBEq v1 v2 && pvBEqDict as bs
  | _, _ => false

end

mutual

theorem pvBEq_iff : ∀ a b, pvBEq a b = true ↔ a = b
  | .null, .null => by simp [pvBEq]
  | .bool a, .bool b => by simp [pvBEq]
  | .num a, .num b => by simp [pvBEq]
  | .str a, .str b => by simp [pvBEq]
  | .list a, .list b => by simp [pvBEq, pvBEqList_iff a b]
  | .dict a, .dict b => by simp [pvBEq, pvBEqDict_iff a b]
  | .null, .bool _ | .null, .num _ | .null, .str _ | .null, .list _ | .null, .dict _
  | .bool _, .null | .bool _, .num _ | .bool _, .str _ | .bool _, .list _ | .bool _, .dict _
  | .num _, .null | .num _, .bool _ | .num _, .str _ | .num _, .list _ | .num _, .dict _
  | .str _, .null | .str _, .bool _ | .str _, .num _ | .str _, .list _ | .str _, .dict _
  | .list _, .null | .list _, .bool _ | .list _, .num _ | .list _, .str _ | .list _, .dict _
  | .dict _, .null | .dict _, .bool _ | .dict _, .num _ | .dict _, .str _ | .dict _, .list _ =>
      by simp [pvBEq]

theorem pvBEqList_iff : ∀ a b, pvBEqList a b = true ↔ a = b
  | [], [] => by simp [pvBEqList]
  | a :: as, b :: bs => by
      simp [pvBEqList, pvBEq_iff a b, pvBEqList_iff as bs]
  | [], _ :: _ => by simp [pvBEqList]
  | _ :: _, [] => by simp [pvBEqList]

theorem pvBEqDict_iff : ∀ a b, pvBEqDict a b = true ↔ a = b
  | [], [] => by simp [pvBEqDict]
  | (k1, v1) :: as, (k2, v2) :: bs => by
      simp [pvBEqDict, pvBEq_iff v1 v2, pvBEqDict_iff as bs, and_assoc]
  | [], _ :: _ => by simp [pvBEqDict]
  | _ :: _, [] => by simp [pvBEqDict]

end

instance : DecidableEq PyVal := fun a b => decidable_of_iff _ (pvBEq_iff a b)

/-- Python truthiness of a `PyVal` (`bool(x)`). -/
def pyTruthy : PyVal → Bool
  | .null => false
  | .bool b => b
  | .num q => q ≠ 0
  | .str s => s ≠ ""
  | .list xs => ¬ xs.isEmpty
  | .dict d => ¬ d.isEmpty

/-- Python `a or b` on values (returns `a` when truthy, else `b`). -/
def pyOr (a b : PyVal) : PyVal := if pyTruthy a then a else b

/-- The empty Python dict `{}`. -/
def emptyDict : PyVal := .dict []

/-- `dict.get(k)` on an association list built with `pyInsert` (default `None`). -/
def pyGet (d : List (String × PyVal)) (k : String) : PyVal :=
  match d.find? (fun kv => kv.1 == k) with
  | some kv => kv.2
  | none => .null

/-- Python dict insertion: an existing key keeps its position and gets the new
value, a new key is appended. -/
def pyInsert (d : List (String × PyVal)) (k : String) (v : PyVal) :
    List (String × PyVal) :=
  match d with
  | [] => [(k, v)]
  | (k', v') :: rest =>
      if k' == k then (k', v) :: rest else (k', v') :: pyInsert rest k v

/-- `.get` on a value that must be a dict; any other receiver raises
`AttributeError` in Python. -/
def pyGetE (v : PyVal) (k : String) : Except Unit PyVal :=
  match v with
  | .dict d => .ok (pyGet d k)
  | _ => .error ()

/-- Python whitespace stripped by `str.strip()` (ASCII part; unicode spaces
are not modelled). -/
def isPyStripWs (c : Char) : Bool :=
  c == ' ' || c == '\t' || c == '\n' || c == '\r' || c == '\x0b' || c == '\x0c'

/-- Drop leading characters satisfying `p`. -/
def dropLeading (p : Char → Bool) : List Char → List Char
  | [] => []
  | c :: cs => if p c then dropLeading p cs else c :: cs

/-- `str.strip(chars)` generalisation: drop leading and trailing characters
satisfying `p`. -/
def stripWith (p : Char → Bool) (s : String) : String :=
  String.mk ((dropLeading p (dropLeading p s.data).reverse).reverse)

/-- `str.strip()` (ASCII whitespace). -/
def pyStrip (s : String) : String := stripWith isPyStripWs s

/-- `str.lower()` (ASCII case folding; unicode folding is not modelled). -/
def pyLower (s : String) : String := String.mk (s.data.map Char.toLower)

/-! ### The JSON parser (`json.loads`)

Character-list recursive descent.  The value-level recursion carries a fuel
counter that strictly decreases on every (mutual) call; the top level runs it
with fuel `4 * length + 8`, which a chain of calls can never exhaust since
every cycle through `parseJValue` consumes at least one input character. -/

/-- JSON whitespace as skipped by Python's `json` module. -/
def isJsonWs (c : Char) : Bool := c == ' ' || c == '\t' || c == '\n' || c == '\r'

/-- Skip leading JSON whitespace. -/
def skipWs : List Char → List Char
  | [] => []
  | c :: cs => if isJsonWs c then skipWs cs else c :: cs

/-- ASCII decimal digit test. -/
def isDigitCh (c : Char) : Bool := '0' ≤ c && c ≤ '9'

/-- Value of a hex digit, if it is one. -/
def hexVal (c : Char) : Option Nat :=
  let n := c.toNat
  if 48 ≤ n && n ≤ 57 then some (n - 48)
  else if 97 ≤ n && n ≤ 102 then some (n - 87)
  else if 65 ≤ n && n ≤ 70 then some (n - 55)
  else none

/-- Value of a 4-digit hex escape payload. -/
def hex4 (a b c d : Char) : Option Nat :=
  match hexVal a, hexVal b, hexVal c, hexVal d with
  | some va, some vb, some vc, some vd =>
      some (((va * 16 + vb) * 16 + vc) * 16 + vd)
  | _, _, _, _ => none

/-- The single-character JSON escapes recognised by Python's decoder. -/
def escChar : Char → Option Char
  | '"' => some '"'
  | '\\' => some '\\'
  | '/' => some '/'
  | 'b' => some '\x08'
  | 'f' => some '\x0c'
  | 'n' => some '\n'
  | 'r' => some '\r'
  | 't' => some '\t'
  | _ => none

/-- Prepend a decoded character to the result of parsing the rest of a
string body. -/
def consFirst (ch : Char) : Option (List Char × List Char) → Option (List Char × List Char)
  | some (t, r) => some (ch :: t, r)
  | none => none

/-- Parse the body of a JSON string literal (after the opening quote):
returns the decoded characters and the input after the closing quote.
Strict mode: raw control characters are rejected.  `\uXXXX` supports
surrogate pairs as Python does (a lone surrogate is unrepresentable in a
Lean `Char` and degrades to `Char.ofNat`'s default). -/
def parseStringBody : Nat → List Char → Option (List Char × List Char)
  | 0, _ => none
  | _ + 1, [] => none
  | fuel + 1, c :: rest =>
    if c == '"' then some ([], rest)
    else if c == '\\' then
      match rest with
      | 'u' :: h1 :: h2 :: h3 :: h4 :: rest2 =>
          match hex4 h1 h2 h3 h4 with
          | none => none
          | some n =>
            if 0xD800 ≤ n && n ≤ 0xDBFF then
              match rest2 with
              | '\\' :: 'u' :: g1 :: g2 :: g3 :: g4 :: rest3 =>
                  match hex4 g1 g2 g3 g4 with
                  | some m =>
                      if 0xDC00 ≤ m && m ≤ 0xDFFF then
                        consFirst
                          (Char.ofNat (0x10000 + (n - 0xD800) * 0x400 + (m - 0xDC00)))
                          (parseStringBody fuel rest3)
                      else consFirst (Char.ofNat n) (parseStringBody fuel rest2)
                  | none => consFirst (Char.ofNat n) (parseStringBody fuel rest2)
              | _ => consFirst (Char.ofNat n) (parseStringBody fuel rest2)
            else consFirst (Char.ofNat n) (parseStringBody fuel rest2)
      | e :: rest2 =>
          match escChar e with
          | some ch => consFirst ch (parseStringBody fuel rest2)
          | none => none
      | [] => none
    else if c.toNat < 32 then none
    else consFirst c (parseStringBody fuel rest)

/-- Digits of a number, greedily. -/
def takeDigits : List Char → List Char × List Char
  | [] => ([], [])
  | c :: cs =>
      if isDigitCh c then
        let (ds, r) := takeDigits cs
        (c :: ds, r)
      else ([], c :: cs)

/-- Numeric value of a digit list. -/
def digitsToNat (ds : List Char) : Nat :=
  ds.foldl (fun acc c => acc * 10 + (c.toNat - '0'.toNat)) 0

/-- Parse a JSON number per Python's `NUMBER_RE`:
`-?(0|[1-9][0-9]*)(\.[0-9]+)?([eE][+-]?[0-9]+)?`.  Returns the exact rational
value (Python's int/float distinction is collapsed into `Rat`). -/
def parseNumber (cs : List Char) : Option (Rat × List Char) :=
  let (neg, cs1) : Bool × List Char :=
    match cs with
    | '-' :: r => (true, r)
    | _ => (false, cs)
  match cs1 with
  | [] => none
  | c :: cs2 =>
    if ¬ isDigitCh c then none
    else
      let (intDs, rest1) : List Char × List Char :=
        if c == '0' then (['0'], cs2)
        else
          let (ds, r) := takeDigits cs2
          (c :: ds, r)
      let (fracDs, rest2) : List Char × List Char :=
        match rest1 with
        | '.' :: r =>
            let (ds, r') := takeDigits r
            if ds.isEmpty then ([], rest1) else (ds, r')
        | _ => ([], rest1)
      let (expVal, rest3) : Int × List Char :=
        match rest2 with
        | 'e' :: r | 'E' :: r =>
            let esign : Int := if r.head? == some '-' then -1 else 1
            let r1 : List Char :=
              if r.head? == some '+' || r.head? == some '-' then r.drop 1 else r
            let (eds, r2) := takeDigits r1
            if eds.isEmpty then (0, rest2) else (esign * digitsToNat eds, r2)
        | _ => (0, rest2)
      let mant : Int := (digitsToNat intDs : Int) * (Nat.pow 10 fracDs.length : Nat)
        + (digitsToNat fracDs : Int)
      let mant : Int := if neg then -mant else mant
      let q : Rat :=
        if 0 ≤ expVal then
          mkRat (mant * (Nat.pow 10 expVal.toNat : Nat)) (Nat.pow 10 fracDs.length)
        else
          mkRat mant (Nat.pow 10 fracDs.length * Nat.pow 10 (-expVal).toNat)
      some (q, rest3)

/-- The six states of the recursive-descent scanner: a value, array elements
(initial and continuation), a `"key": value` pair, and object members
(initial and continuation).  A single fuel-structural function keeps kernel
reduction available; every transition decrements the fuel, and the top level
supplies `4 * length + 8`, which a run can never exhaust since at most a few
transitions happen per consumed character. -/
inductive JMode where
  | value
  | elemsFirst
  | elemsRest
  | kv
  | membersFirst
  | membersRest

/-- Intermediate results of the scanner, per mode. -/
inductive JOut where
  | v (x : PyVal)
  | vs (xs : List PyVal)
  | ps (fields : List (String × PyVal))

/-- The scanner: Python's `json` object/array/value grammar (strict commas,
string keys only, no trailing garbage handling here). -/
def parseRun : Nat → JMode → List Char → Option (JOut × List Char)
  | 0, _, _ => none
  | fuel + 1, .value, cs =>
    match skipWs cs with
    | 'n' :: 'u' :: 'l' :: 'l' :: rest => some (.v .null, rest)
    | 't' :: 'r' :: 'u' :: 'e' :: rest => some (.v (.bool true), rest)
    | 'f' :: 'a' :: 'l' :: 's' :: 'e' :: rest => some (.v (.bool false), rest)
    | '"' :: rest =>
        match parseStringBody (rest.length + 1) rest with
        | some (t, r) => some (.v (.str (String.mk t)), r)
        | none => none
    | '\x7b' :: rest =>
        match parseRun fuel .membersFirst rest with
        | some (.ps ps, r) =>
            some (.v (.dict (ps.foldl (fun d kv => pyInsert d kv.1 kv.2) [])), r)
        | _ => none
    | '[' :: rest =>
        match parseRun fuel .elemsFirst rest with
        | some (.vs vs, r) => some (.v (.list vs), r)
        | _ => none
    | c :: rest =>
        if c == '-' || isDigitCh c then
          match parseNumber (c :: rest) with
          | some (q, r) => some (.v (.num q), r)
          | none => none
        else none
    | [] => none
  | fuel + 1, .elemsFirst, cs =>
    match skipWs cs with
    | ']' :: rest => some (.vs [], rest)
    | cs' =>
        match parseRun fuel .value cs' with
        | some (.v v, r) =>
            match parseRun fuel .elemsRest r with
            | some (.vs vs, r2) => some (.vs (v :: vs), r2)
            | _ => none
        | _ => none
  | fuel + 1, .elemsRest, cs =>
    match skipWs cs with
    | ']' :: rest => some (.vs [], rest)
    | ',' :: rest =>
        match parseRun fuel .value rest with
        | some (.v v, r) =>
            match parseRun fuel .elemsRest r with
            | some (.vs vs, r2) => some (.vs (v :: vs), r2)
            | _ => none
        | _ => none
    | _ => none
  | fuel + 1, .kv, cs =>
    match parseStringBody (cs.length + 1) cs with
    | some (k, r) =>
        match skipWs r with
        | ':' :: r2 =>
            match parseRun fuel .value r2 with
            | some (.v v, r3) =>
                match parseRun fuel .membersRest r3 with
                | some (.ps ps, r4) => some (.ps ((String.mk k, v) :: ps), r4)
                | _ => none
            | _ => none
        | _ => none
    | none => none
  | fuel + 1, .membersFirst, cs =>
    match skipWs cs with
    | '\x7d' :: rest => some (.ps [], rest)
    | '"' :: rest => parseRun fuel .kv rest
    | _ => none
  | fuel + 1, .membersRest, cs =>
    match skipWs cs with
    | '\x7d' :: rest => some (.ps [], rest)
    | ',' :: rest =>
        match skipWs rest with
        | '"' :: r2 => parseRun fuel .kv r2
        | _ => none
    | _ => none

/-- Parse one JSON value, as Python's scanner does. -/
def parseJValue (fuel : Nat) (cs : List Char) : Option (PyVal × List Char) :=
  match parseRun fuel .value cs with
  | some (.v v, r) => some (v, r)
  | _ => none

/-- `_parse_payload` (main.py:317): `None` for falsy input, `json.loads`
result on success, `None` on any decode error (including trailing garbage). -/
def parsePayload (s : String) : Option PyVal :=
  if s = "" then none
  else
    match parseJValue (4 * s.length + 8) s.data with
    | some (v, r) => if (skipWs r).isEmpty then some v else none
    | none => none

/-! ### `_payload_as_dict` (main.py:326)

The Python function recurses whenever a decoded payload is again a string.
Each such step strips at least the two quotes of a JSON string literal, so
the recursion depth is bounded by the string length; the Lean model runs on
that fuel, and `payloadAsDictFuel_stable` (below) proves the fuel never runs
out, i.e. the bounded model computes the same fixpoint the unbounded Python
recursion reaches. -/

/-- Fuel sufficient for `_payload_as_dict`'s recursion on a given value. -/
def pyAdFuel : PyVal → Nat
  | .str s => s.length + 1
  | _ => 1

/-- `_payload_as_dict`, fuelled: `None → {}`, dict as-is, a string is decoded
(returning a decoded dict, recursing on a decoded string, `{}` otherwise),
anything else `{}`. -/
def payloadAsDictFuel : Nat → PyVal → List (String × PyVal)
  | _, .null => []
  | _, .dict d => d
  | fuel + 1, .str s =>
      match parsePayload s with
      | some (.dict d) => d
      | some (.str t) => payloadAsDictFuel fuel (.str t)
      | _ => []
  | 0, .str _ => []
  | _, _ => []

/-- `_payload_as_dict` (main.py:326): normalize a stored payload value to a
dict, decoding any number of string-encoding layers. -/
def payloadAsDict (raw : PyVal) : List (String × PyVal) :=
  payloadAsDictFuel (pyAdFuel raw) raw

/-! ### `safe_number_convert` (main.py:62) and Python number casts -/

/-- Exact rational addition, written out on numerator/denominator (Batteries
marks `Rat.add` irreducible, which would block kernel evaluation). -/
def ratAdd (a b : Rat) : Rat :=
  mkRat (a.num * (b.den : Int) + b.num * (a.den : Int)) (a.den * b.den)

/-- Exact rational subtraction, as `ratAdd`. -/
def ratSub (a b : Rat) : Rat :=
  mkRat (a.num * (b.den : Int) - b.num * (a.den : Int)) (a.den * b.den)

/-- Python `int()` truncation toward zero of an exact rational (the reduced
numerator divided by the positive denominator, truncated). -/
def ratTrunc (q : Rat) : Int := Int.tdiv q.num (q.den : Int)

/-- Python `int(str)`: optional surrounding whitespace and sign, then decimal
digits (digit-group underscores are not modelled). -/
def pyIntOfString (s : String) : Option Int :=
  let t := (pyStrip s).data
  let (neg, ds) : Bool × List Char :=
    match t with
    | '+' :: r => (false, r)
    | '-' :: r => (true, r)
    | _ => (false, t)
  if ds.isEmpty || ¬ ds.all isDigitCh then none
  else some (if neg then -(digitsToNat ds : Int) else (digitsToNat ds : Int))

/-- Python `float(str)`: optional sign, digits with optional fraction and
exponent (`inf`/`nan` literals and underscores are not modelled). -/
def pyFloatOfString (s : String) : Option Rat :=
  let t := (pyStrip s).data
  let (neg, r0) : Bool × List Char :=
    match t with
    | '+' :: r => (false, r)
    | '-' :: r => (true, r)
    | _ => (false, t)
  let (intDs, r1) := takeDigits r0
  let (fracDs, r2) : List Char × List Char :=
    match r1 with
    | '.' :: rr => takeDigits rr
    | _ => ([], r1)
  if intDs.isEmpty && fracDs.isEmpty then none
  else
    let expRes : Option (Int × List Char) :=
      match r2 with
      | 'e' :: rr | 'E' :: rr =>
          let es : Int := if rr.head? == some '-' then -1 else 1
          let rr1 : List Char :=
            if rr.head? == some '+' || rr.head? == some '-' then rr.drop 1 else rr
          let (eds, rr2) := takeDigits rr1
          if eds.isEmpty then none else some (es * digitsToNat eds, rr2)
      | _ => some (0, r2)
    match expRes with
    | none => none
    | some (e, rest) =>
        if ¬ rest.isEmpty then none
        else
          let mant : Int := (digitsToNat intDs : Int) * (Nat.pow 10 fracDs.length : Nat)
            + (digitsToNat fracDs : Int)
          let mant : Int := if neg then -mant else mant
          some (if 0 ≤ e then
              mkRat (mant * (Nat.pow 10 e.toNat : Nat)) (Nat.pow 10 fracDs.length)
            else
              mkRat mant (Nat.pow 10 fracDs.length * Nat.pow 10 (-e).toNat))

/-- `safe_number_convert(value, float)` (main.py:62).  A Python `bool` passes
the `isinstance(value, (int, float))` test (`bool` subclasses `int`). -/
def safeNCFloat : PyVal → Option Rat
  | .null => none
  | .bool b => some (if b then 1 else 0)
  | .num q => some q
  | .str s =>
      let t := pyStrip s
      if t = "" then none else pyFloatOfString t
  | _ => none

/-- `safe_number_convert(value, int)` (main.py:62): as above but through
Python `int()`, which truncates numbers and rejects non-integer strings. -/
def safeNCInt : PyVal → Option Int
  | .null => none
  | .bool b => some (if b then 1 else 0)
  | .num q => some (ratTrunc q)
  | .str s =>
      let t := pyStrip s
      if t = "" then none else pyIntOfString t
  | _ => none

/-! ### `_normalize_sentiment` (main.py:418) -/

/-- `startsWithChars n h`: `n` is an initial segment of `h`. -/
def startsWithChars : List Char → List Char → Bool
  | [], _ => true
  | _ :: _, [] => false
  | a :: as, b :: bs => a == b && startsWithChars as bs

/-- `containsSeq n h`: `n` occurs as a contiguous segment of `h`
(Python's `n in h` on strings). -/
def containsSeq (n : List Char) : List Char → Bool
  | [] => startsWithChars n []
  | c :: cs => startsWithChars n (c :: cs) || containsSeq n cs

/-- Python `needle in hay` for strings. -/
def strContains (hay needle : String) : Bool := containsSeq needle.data hay.data

/-- The classification table of `_normalize_sentiment` applied to a string
label: lower-cased and trimmed, exact synonym match first, then the substring
fallbacks, defaulting to `"neutral"`. -/
def classifySent (s : String) : String :=
  let t := pyLower (pyStrip s)
  if ["positive", "professional & satisfied", "friendly & cooperative",
      "really positive", "very positive"].contains t then "positive"
  else if ["neutral"].contains t then "neutral"
  else if ["negative", "unprofessional", "really negative",
      "very negative"].contains t then "negative"
  else if ["frustrated", "impatient", "dismissive", "angry"].contains t then
    "frustrated"
  else if strContains t "positive" then "positive"
  else if strContains t "negative" then "negative"
  else if strContains t "frustrat" || strContains t "angry"
      || strContains t "impatient" then "frustrated"
  else "neutral"

/-- `_normalize_sentiment(raw)` (main.py:418).  A falsy value returns
`"neutral"`; a truthy string goes through the table; a truthy non-string hits
`.strip()` and raises `AttributeError`. -/
def normalizeSentimentE (raw : PyVal) : Except Unit String :=
  if ¬ pyTruthy raw then .ok "neutral"
  else
    match raw with
    | .str s => .ok (classifySent s)
    | _ => .error ()

/-! ### `_first_reasoning` (main.py:528)

The Python recursion descends into nested dicts and into dicts decoded from
nested JSON strings; decoding shrinks strings, so it terminates.  The model
runs on a `sizeOf`-based fuel large enough for every actual input. -/

/-- The priority-ordered reasoning field names (main.py:524). -/
def reasoningKeys : List String :=
  ["sentiment_reasoning", "reasoning", "response_reasoning",
   "sentimentReasoning", "reason", "why", "explanation",
   "Response Reasoning", "Sentiment_Reasoning"]

/-- First key of `ks` whose value in `d` is a string with non-empty strip. -/
def findKeyHit (d : List (String × PyVal)) : List String → Option String
  | [] => none
  | k :: ks =>
      match pyGet d k with
      | .str s =>
          let t := pyStrip s
          if t = "" then findKeyHit d ks else some t
      | _ => findKeyHit d ks

/-- `_first_reasoning(d)` (main.py:528): `None` for a non-dict, else the
first direct reasoning-key hit, else a recursive search of the
`payload`/`data`/`body` sub-objects in that order (a string sub-object is
JSON-decoded first; a decoded non-dict is skipped).  The Python recursion
descends into structurally smaller dicts or into dicts decoded from strictly
shrinking strings, so it terminates; the model spends one fuel per descent
and is run with a `pvSize` budget that always dominates the depth. -/
def firstReasoning : Nat → PyVal → Option String
  | _, .null => none
  | _, .bool _ => none
  | _, .num _ => none
  | _, .str _ => none
  | _, .list _ => none
  | 0, .dict _ => none
  | fuel + 1, .dict d =>
      match findKeyHit d reasoningKeys with
      | some s => some s
      | none =>
          let sub1 : Option String :=
            match pyGet d "payload" with
            | .dict sub => firstReasoning fuel (.dict sub)
            | .str s =>
                match parsePayload s with
                | some (.dict sub) => firstReasoning fuel (.dict sub)
                | _ => none
            | _ => none
          match sub1 with
          | some s => some s
          | none =>
              let sub2 : Option String :=
                match pyGet d "data" with
                | .dict sub => firstReasoning fuel (.dict sub)
                | .str s =>
                    match parsePayload s with
                    | some (.dict sub) => firstReasoning fuel (.dict sub)
                    | _ => none
                | _ => none
              match sub2 with
              | some s => some s
              | none =>
                  match pyGet d "body" with
                  | .dict sub => firstReasoning fuel (.dict sub)
                  | .str s =>
                      match parsePayload s with
                      | some (.dict sub) => firstReasoning fuel (.dict sub)
                      | _ => none
                  | _ => none

/-! ### Timestamps: `datetime.fromisoformat` and the duration span -/

/-- `ts.replace("Z", "+00:00")` (every occurrence of the character `Z`). -/
def replaceZ (s : String) : String :=
  String.mk (s.data.foldr
    (fun c acc =>
      if c == 'Z' then '+' :: '0' :: '0' :: ':' :: '0' :: '0' :: acc
      else c :: acc) [])

/-- Two ASCII digits. -/
def digit2 : List Char → Option (Nat × List Char)
  | a :: b :: r =>
      if isDigitCh a && isDigitCh b then
        some ((a.toNat - 48) * 10 + (b.toNat - 48), r)
      else none
  | _ => none

/-- Four ASCII digits. -/
def digit4 : List Char → Option (Nat × List Char)
  | a :: b :: c :: d :: r =>
      if isDigitCh a && isDigitCh b && isDigitCh c && isDigitCh d then
        some (((a.toNat - 48) * 10 + (b.toNat - 48)) * 100
          + (c.toNat - 48) * 10 + (d.toNat - 48), r)
      else none
  | _ => none

/-- Gregorian leap year. -/
def isLeap (y : Nat) : Bool := y % 4 == 0 && (y % 100 != 0 || y % 400 == 0)

/-- Days in a month of the proleptic Gregorian calendar. -/
def daysInMonth (y m : Nat) : Nat :=
  if m == 2 then (if isLeap y then 29 else 28)
  else if [4, 6, 9, 11].contains m then 30
  else 31

/-- Day number of a civil date (days since 1970-01-01), for `y ≥ 1`. -/
def daysFromCivil (y m d : Nat) : Int :=
  let yy : Int := if m ≤ 2 then (y : Int) - 1 else (y : Int)
  let era : Int := yy / 400
  let yoe : Int := yy - era * 400
  let mp : Int := ((m : Int) + 9) % 12
  let doy : Int := (153 * mp + 2) / 5 + (d : Int) - 1
  let doe : Int := yoe * 365 + yoe / 4 - yoe / 100 + doy
  era * 146097 + doe - 719468

/-- A parsed datetime: seconds on the naive timeline plus an optional
UTC-offset in minutes (aware iff present). -/
structure PyDateTime where
  secs : Rat
  offMinutes : Option Int

/-- Time-of-day part `HH[:MM[:SS[.fff|.ffffff]]]` (validated as Python's
`time()` constructor does), in seconds. -/
def parseHMSF (cs : List Char) : Option Rat := do
  let (hh, r1) ← digit2 cs
  if hh ≥ 24 then none
  else
    match r1 with
    | [] => some ((hh * 3600 : Nat) : Rat)
    | ':' :: r2 => do
        let (mm, r3) ← digit2 r2
        if mm ≥ 60 then none
        else
          match r3 with
          | [] => some ((hh * 3600 + mm * 60 : Nat) : Rat)
          | ':' :: r4 => do
              let (ss, r5) ← digit2 r4
              if ss ≥ 60 then none
              else
                match r5 with
                | [] => some ((hh * 3600 + mm * 60 + ss : Nat) : Rat)
                | '.' :: r6 =>
                    let (ds, r7) := takeDigits r6
                    if r7.isEmpty && (ds.length == 3 || ds.length == 6) then
                      some (mkRat
                        ((hh * 3600 + mm * 60 + ss : Nat) * Nat.pow 10 ds.length
                          + digitsToNat ds : Nat)
                        (Nat.pow 10 ds.length))
                    else none
                | _ => none
          | _ => none
    | _ => none

/-- Split a time string at the first `+`/`-` (the timezone marker);
returns the time chars and, if found, the offset sign and chars. -/
def splitTz : List Char → List Char × Option (Bool × List Char)
  | [] => ([], none)
  | c :: rest =>
      if c == '+' then ([], some (false, rest))
      else if c == '-' then ([], some (true, rest))
      else
        let (a, b) := splitTz rest
        (c :: a, b)

/-- UTC offset `HH:MM` in minutes (total must be under a day, as
`timezone(timedelta(...))` requires; minute-field range is not checked by
CPython's parser and is not checked here). -/
def parseTzOffset (neg : Bool) (cs : List Char) : Option Int := do
  let (oh, r1) ← digit2 cs
  match r1 with
  | ':' :: r2 => do
      let (om, r3) ← digit2 r2
      if ¬ r3.isEmpty then none
      else
        let total : Int := oh * 60 + om
        if total ≥ 1440 then none
        else some (if neg then -total else total)
  | _ => none

/-- `datetime.fromisoformat` (CPython ≤ 3.10 shape): `YYYY-MM-DD` then an
optional single separator character (any character) and a time with optional
UTC offset. -/
def dtParse (s : String) : Option PyDateTime := do
  let cs := s.data
  let (y, r1) ← digit4 cs
  match r1 with
  | '-' :: r2 => do
      let (m, r3) ← digit2 r2
      match r3 with
      | '-' :: r4 => do
          let (d, r5) ← digit2 r4
          if y = 0 || m = 0 || m > 12 || d = 0 || d > daysInMonth y m then none
          else
            let daySecs : Rat := ((daysFromCivil y m d) * 86400 : Int)
            match r5 with
            | [] => some ⟨daySecs, none⟩
            | [_] => none
            | _ :: t => do
                let (timeCs, tz) := splitTz t
                let tod ← parseHMSF timeCs
                match tz with
                | none => some ⟨ratAdd daySecs tod, none⟩
                | some (sgn, offCs) => do
                    let off ← parseTzOffset sgn offCs
                    some ⟨ratAdd daySecs tod, some off⟩
      | _ => none
  | _ => none

/-- The default duration (main.py:450): whole-second span between the first
and the last event timestamp, truncated and floored at zero; any parse
failure or naive/aware mismatch (Python `TypeError` on subtraction) falls
back to 0. -/
def computeSpan (firstTs lastTs : String) : Int :=
  match dtParse (replaceZ lastTs), dtParse (replaceZ firstTs) with
  | some dL, some dF =>
      match dL.offMinutes, dF.offMinutes with
      | some oL, some oF =>
          max 0 (ratTrunc (ratSub (ratSub dL.secs (mkRat (oL * 60) 1))
            (ratSub dF.secs (mkRat (oF * 60) 1))))
      | none, none => max 0 (ratTrunc (ratSub dL.secs dF.secs))
      | _, _ => 0
  | _, _ => 0

/-! ### The stores (storage.py)

`events.id` is `AUTOINCREMENT` and `get_events_by_call_id` orders by it
ascending, so list order models id order (append = insert).  The three read
functions used by the record builder execute only `SELECT` statements, so
each is a state operation that returns the store unchanged. -/

/-- One row of the `events` table as `get_events_by_call_id` returns it.  The
`payload` column holds the `json.dumps` text written at insert time. -/
structure EventRow where
  call_id : String
  event_type : String
  payload : String
  timestamp : String

/-- The persistent stores: the append-only event log (in id order) and the
two key-value tables, rows as column-name/value association lists. -/
structure DB where
  events : List EventRow
  profiles : List (String × List (String × PyVal))
  prefsTab : List (String × List (String × PyVal))

/-- `get_events_by_call_id` (storage.py:236): all events of a call, id order. -/
def getEventsByCallId (db : DB) (cid : String) : List EventRow :=
  db.events.filter (fun e => e.call_id == cid)

/-- `get_events_by_call_id` as a state operation (SELECT only). -/
def getEventsByCallIdS (db : DB) (cid : String) : List EventRow × DB :=
  (getEventsByCallId db cid, db)

/-- `log_event` (storage.py:92): the only mutation of the event table —
an append, which assigns the next monotonic id. -/
def logEventS (db : DB) (cid et payloadText ts : String) : Bool × DB :=
  (true, { db with events := db.events ++ [⟨cid, et, payloadText, ts⟩] })

/-- `get_carrier_profile` (storage.py:152) as a state operation.  The key the
builder passes may be any payload value: sqlite3 raises `InterfaceError`
when binding a list/dict parameter; other non-string keys bind but match no
TEXT `mc_number` row (SQLite text-affinity conversion of numeric keys is not
modelled). -/
def getCarrierProfileS (db : DB) (key : PyVal) :
    Except Unit (Option (List (String × PyVal))) × DB :=
  match key with
  | .str s => (.ok ((db.profiles.find? (fun p => p.1 == s)).map (fun p => p.2)), db)
  | .list _ => (.error (), db)
  | .dict _ => (.error (), db)
  | _ => (.ok none, db)

/-- `get_call_search_prefs` (storage.py:210) as a state operation. -/
def getCallSearchPrefsS (db : DB) (cid : String) :
    Option (List (String × PyVal)) × DB :=
  ((db.prefsTab.find? (fun p => p.1 == cid)).map (fun p => p.2), db)

/-! ### `_build_call_record` (main.py:439) -/

/-- The event-type key used for grouping (main.py:445):
`(event_type or "").strip().strip('"')`. -/
def keyOf (et : String) : String := stripWith (fun c => c == '"') (pyStrip et)

/-- The last event (in store order) whose key is `k` — the survivor of the
`by_type` dict built at main.py:443. -/
def lastWithKey (k : String) : List EventRow → Option EventRow
  | [] => none
  | e :: rest =>
      match lastWithKey k rest with
      | some r => some r
      | none => if keyOf e.event_type == k then some e else none

/-- `(by_type.get(k) or {}).get("payload")`: the parsed payload of the last
event with key `k`, `None` when the key is absent or parsing failed. -/
def lastPayload (events : List EventRow) (k : String) : PyVal :=
  match lastWithKey k events with
  | none => .null
  | some e => (parsePayload e.payload).getD .null

/-- The `load_matched` sub-dict (main.py:475). -/
structure LoadSnapshot where
  load_id : PyVal
  origin : PyVal
  destination : PyVal
  pickup_datetime : PyVal
  delivery_datetime : PyVal
  equipment_type : PyVal
  loadboard_rate : Rat
  weight : Rat
  commodity_type : PyVal
  miles : Rat
  notes : PyVal
  num_of_pieces : Option Int
  dimensions : PyVal

/-- The `negotiation` sub-dict (main.py:500).  `rounds` stays a `PyVal`
because a boolean passes Python's `isinstance(rounds, int)` unchanged. -/
structure Negotiation where
  rounds : PyVal
  initial_offer : Rat
  counter_offers : List Rat
  final_rate : Option Rat
  agreed : Bool

/-- The `call_search_prefs` snapshot (main.py:558). -/
structure PrefsSnapshot where
  origin_city : PyVal
  origin_state : PyVal
  destination_city : PyVal
  destination_state : PyVal
  equipment_type : PyVal
  weight_capacity : Option Int
  min_temp : Option Rat
  max_temp : Option Rat
  notes : PyVal
  pickup_date : PyVal
  departure_date : PyVal
  latest_departure_date : PyVal

/-- The call record returned by `_build_call_record` (main.py:559). -/
structure CallRecord where
  id : String
  timestamp : String
  mc_number : PyVal
  carrier_name : PyVal
  fmcsa_verified : Bool
  verification_status : String
  load_matched : Option LoadSnapshot
  negotiation : Option Negotiation
  outcome : String
  sentiment : String
  sentiment_tone : PyVal
  sentiment_reasoning : Option String
  call_duration_seconds : Int
  sales_rep_notes : Option String
  call_search_prefs : Option PrefsSnapshot

/-- Python `x is True`. -/
def pyIsTrue : PyVal → Bool
  | .bool true => true
  | _ => false

/-- Python `x is False`. -/
def pyIsFalse : PyVal → Bool
  | .bool false => true
  | _ => false

/-- main.py:469: `"failed" if eligible is False else ("verified" if eligible
is True else "pending")`. -/
def statusOf (elig : PyVal) : String :=
  if pyIsFalse elig then "failed"
  else if pyIsTrue elig then "verified"
  else "pending"

/-- main.py:499: `accepted in (True, "true", "True")`.  Python `in` compares
with `==`, and `1 == True` (also `1.0 == True`), so a numeric 1 is accepted. -/
def isAccepted : PyVal → Bool
  | .bool true => true
  | .num q => q == 1
  | .str s => s == "true" || s == "True"
  | _ => false

/-- main.py:491-495: keep an `isinstance(_, int)` value (ints and bools),
otherwise try `int(rounds)`, with `ValueError`/`TypeError` giving 0.  Under
the int/float collapse, `int()` on a number is truncation. -/
def roundsCoerce : PyVal → PyVal
  | .num q => .num ((ratTrunc q : Int) : Rat)
  | .bool b => .bool b
  | .str s =>
      match pyIntOfString s with
      | some n => .num (n : Rat)
      | none => .num 0
  | _ => .num 0

/-- The outcome decision chain (main.py:506-513), as a function of the
eligibility value, the truthiness of the resolved negotiation dict, and the
accepted flag.  `fmcsa_verified` is `eligible is True`, inlined. -/
def outcomeTable (elig : PyVal) (negTruthy accepted : Bool) : String :=
  if ¬ pyIsTrue elig && pyIsFalse elig then "failed_verification"
  else if ¬ negTruthy then "dropped"
  else if accepted then "booked"
  else "no_deal"

/-- Iterating a Python value (main.py:497): lists yield elements, strings
yield 1-character strings, dicts yield their keys; a number/bool/`None`
raises `TypeError`. -/
def pyIterE : PyVal → Except Unit (List PyVal)
  | .list xs => .ok xs
  | .str s => .ok (s.data.map (fun c => .str (String.mk [c])))
  | .dict d => .ok (d.map (fun kv => PyVal.str kv.1))
  | _ => .error ()

/-- Results of main.py:455-464: the `call_classified` duration override and
the `verify_mc_result`-derived identity fields. -/
structure StageA where
  eligible : PyVal
  mcNumber : PyVal
  carrierName0 : PyVal
  durOverride : Option Int

/-- main.py:455-464.  Each `.get` receiver must be a dict (`pyOr _ {}` makes
falsy values `{}`; a truthy non-dict raises). -/
def stageA (vCls vVerify : PyVal) : Except Unit StageA :=
  match pyOr vCls emptyDict with
  | .dict dcls =>
      let clsVal := pyGet dcls "call_duration_seconds"
      let override : Option Int :=
        match clsVal with
        | .null => none
        | v =>
            match safeNCInt v with
            | some n => if 0 ≤ n then some n else none
            | none => none
      match pyOr vVerify emptyDict with
      | .dict dv =>
          let carrier := pyOr (pyGet dv "carrier") emptyDict
          let elig := pyGet dv "eligible"
          match carrier with
          | .dict dcar =>
              let mc := pyOr (pyGet dcar "mc_number")
                (pyOr (pyGet dv "mc_number") (.str ""))
              let cname := pyOr (pyGet dcar "name")
                (pyOr (pyGet dcar "legal_name") (.str ""))
              .ok ⟨elig, mc, cname, override⟩
          | _ => .error ()
      | _ => .error ()
  | _ => .error ()

/-- The `load_matched` snapshot fields (main.py:475-489). -/
def mkLoadSnapshot (dl : List (String × PyVal)) : LoadSnapshot :=
  { load_id := pyOr (pyGet dl "load_id") (.str "—")
    origin := pyOr (pyGet dl "origin") (.str "Unknown")
    destination := pyOr (pyGet dl "destination") (.str "Unknown")
    pickup_datetime := pyOr (pyGet dl "pickup_datetime") (.str "")
    delivery_datetime := pyOr (pyGet dl "delivery_datetime") (.str "")
    equipment_type := pyOr (pyGet dl "equipment_type") (.str "Van")
    loadboard_rate := (safeNCFloat (pyOr (pyGet dl "loadboard_rate") (pyGet dl "rate"))).getD 0
    weight := (safeNCFloat (pyGet dl "weight")).getD 0
    commodity_type := pyOr (pyGet dl "commodity_type") (pyOr (pyGet dl "commodity") (.str ""))
    miles := (safeNCFloat (pyGet dl "miles")).getD 0
    notes := pyOr (pyGet dl "notes") (.str "")
    num_of_pieces := safeNCInt (pyGet dl "num_of_pieces")
    dimensions := pyOr (pyGet dl "dimensions") (.str "") }

/-- Results of main.py:470-554: load, negotiation, outcome and sentiment. -/
structure StageB where
  load_matched : Option LoadSnapshot
  negotiation : Option Negotiation
  outcome : String
  sentiment : String
  sentiment_tone : PyVal
  sentiment_reasoning : Option String

/-- main.py:470-554, in source order: resolve the load source, build the
snapshot, coerce the negotiation fields, decide the outcome, classify
sentiment and extract reasoning. -/
def stageB (elig vNeg vBest vSent vCls : PyVal) : Except Unit StageB :=
  match pyOr vNeg emptyDict with
  | .dict dn =>
      let selNeg := pyOr (pyGet dn "load_id") (pyGet dn "origin")
      let load_data := if pyTruthy selNeg then PyVal.dict dn else pyOr vBest emptyDict
      let lmE : Except Unit (Option LoadSnapshot) :=
        if ¬ pyTruthy load_data then .ok none
        else
          match load_data with
          | .dict dl =>
              .ok (if pyTruthy (pyOr (pyGet dl "load_id") (pyGet dl "origin"))
                then some (mkLoadSnapshot dl) else none)
          | _ => .error ()
      match lmE with
      | .error u => .error u
      | .ok lm =>
          let rounds := roundsCoerce (pyOr (pyGet dn "negotiation_rounds") (.num 0))
          let lmRateVal : PyVal :=
            match lm with
            | some l => .num l.loadboard_rate
            | none => .null
          let initial0 : Option Rat :=
            safeNCFloat (pyOr (pyGet dn "loadboard_rate")
              (pyOr (pyGet dn "original_rate") lmRateVal))
          match pyIterE (pyOr (pyGet dn "counter_offers") (.list [])) with
          | .error u => .error u
          | .ok items =>
              let counters := items.map (fun x => (safeNCFloat x).getD 0)
              let final_rate := safeNCFloat (pyOr (pyGet dn "final_price") (pyGet dn "final_rate"))
              let accepted := isAccepted (pyGet dn "accepted")
              let lmRate0 : Rat :=
                match lm with
                | some l => l.loadboard_rate
                | none => 0
              let initialField : Rat :=
                match initial0 with
                | some q => if q = 0 then lmRate0 else q
                | none => lmRate0
              let negotiation : Option Negotiation :=
                if lm.isSome || pyTruthy (.dict dn) then
                  some ⟨rounds, initialField, counters, final_rate, accepted⟩
                else none
              let lm2 : Option LoadSnapshot :=
                match lm, negotiation with
                | some l, some n =>
                    if l.loadboard_rate = 0 then
                      let fallback : Option Rat :=
                        if n.initial_offer ≠ 0 then some n.initial_offer else n.final_rate
                      match fallback with
                      | some f => if 0 < f then some { l with loadboard_rate := f } else some l
                      | none => some l
                    else some l
                | some l, none => some l
                | none, _ => none
              let outcome := outcomeTable elig (pyTruthy (.dict dn)) accepted
              let srow := payloadAsDict vSent
              let crow := payloadAsDict vCls
              let sraw := pyOr (pyGet srow "sentiment_classification")
                (pyOr (pyGet srow "sentiment") (pyGet crow "sentiment"))
              match normalizeSentimentE sraw with
              | .error u => .error u
              | .ok sentiment =>
                  let tone := pyOr (pyGet srow "tone") (pyGet crow "tone")
                  let reasoning : Option String :=
                    match firstReasoning (pvSize (.dict srow)) (.dict srow) with
                    | some s => some s
                    | none => firstReasoning (pvSize (.dict crow)) (.dict crow)
                  .ok ⟨lm2, negotiation, outcome, sentiment, tone, reasoning⟩
  | _ => .error ()

/-- The tail of `_build_call_record` after the carrier name has been
resolved (main.py:467-559): finish the name default, run the
load/negotiation/outcome/sentiment stage, read the preferences row and
assemble the record. -/
def buildFinish (db1 : DB) (cid firstTs lastTs : String) (a : StageA)
    (cname1 : PyVal) (vNeg vBest vSent vCls : PyVal) :
    Except Unit (Option CallRecord) × DB :=
  let carrierName := pyOr cname1 (.str "Unknown")
  match stageB a.eligible vNeg vBest vSent vCls with
  | .error u => (.error u, db1)
  | .ok b =>
      let (prefsRow, db2) := getCallSearchPrefsS db1 cid
      let prefsSnap : Option PrefsSnapshot :=
        match prefsRow with
        | none => none
        | some row =>
            if row.isEmpty then none
            else some
              { origin_city := pyGet row "origin_city"
                origin_state := pyGet row "origin_state"
                destination_city := pyGet row "destination_city"
                destination_state := pyGet row "destination_state"
                equipment_type := pyGet row "equipment_type"
                weight_capacity := safeNCInt (pyGet row "weight_capacity")
                min_temp := safeNCFloat (pyGet row "min_temp")
                max_temp := safeNCFloat (pyGet row "max_temp")
                notes := pyGet row "notes"
                pickup_date := pyGet row "pickup_date"
                departure_date := pyGet row "departure_date"
                latest_departure_date := pyGet row "latest_departure_date" }
      (.ok (some
        { id := cid
          timestamp := firstTs
          mc_number := pyOr a.mcNumber (.str "—")
          carrier_name := carrierName
          fmcsa_verified := pyIsTrue a.eligible
          verification_status := statusOf a.eligible
          load_matched := b.load_matched
          negotiation := b.negotiation
          outcome := b.outcome
          sentiment := b.sentiment
          sentiment_tone := b.sentiment_tone
          sentiment_reasoning := b.sentiment_reasoning
          call_duration_seconds := a.durOverride.getD (computeSpan firstTs lastTs)
          sales_rep_notes := none
          call_search_prefs := prefsSnap }), db2)

/-- The body of `_build_call_record` for a non-empty event list, taking the
first/last timestamps and the five grouped payloads, threading the store
through its reads (profile at main.py:466, preferences at main.py:555). -/
def buildNonEmpty (db : DB) (cid firstTs lastTs : String)
    (vVerify vNeg vBest vSent vCls : PyVal) :
    Except Unit (Option CallRecord) × DB :=
  match stageA vCls vVerify with
  | .error u => (.error u, db)
  | .ok a =>
      if ¬ pyTruthy a.carrierName0 && pyTruthy a.mcNumber then
        match getCarrierProfileS db a.mcNumber with
        | (.error u, db1) => (.error u, db1)
        | (.ok profOpt, db1) =>
            buildFinish db1 cid firstTs lastTs a
              (pyOr (pyGet (profOpt.getD []) "legal_name") (.str ""))
              vNeg vBest vSent vCls
      else buildFinish db cid firstTs lastTs a a.carrierName0 vNeg vBest vSent vCls

/-- `_build_call_record(call_id)` (main.py:439) as a state operation:
`ok none` models Python `return None` (no events), `error` models an
uncaught exception. -/
def buildCallRecordS (db : DB) (cid : String) :
    Except Unit (Option CallRecord) × DB :=
  let (events, db0) := getEventsByCallIdS db cid
  match events with
  | [] => (.ok none, db0)
  | e0 :: rest =>
      buildNonEmpty db0 cid e0.timestamp ((rest.getLast?.getD e0).timestamp)
        (lastPayload (e0 :: rest) "verify_mc_result")
        (lastPayload (e0 :: rest) "negotiation_complete")
        (lastPayload (e0 :: rest) "best_load_retrieved")
        (lastPayload (e0 :: rest) "sentiment_classified")
        (lastPayload (e0 :: rest) "call_classified")

/-- The record (or error) `_build_call_record` returns. -/
def buildRec (db : DB) (cid : String) : Except Unit (Option CallRecord) :=
  (buildCallRecordS db cid).1

/-! ### Termination of `_payload_as_dict`

Decoding a JSON string literal strips at least its opening quote, so a
decoded string is strictly shorter than its source text; hence the Python
recursion terminates and the fuelled model is stable once the fuel reaches
`pyAdFuel`. -/

theorem skipWs_length_le (cs : List Char) : (skipWs cs).length ≤ cs.length := by
  induction cs with
  | nil => simp [skipWs]
  | cons c rest ih =>
      by_cases h : isJsonWs c = true
      · simp [skipWs, h]
        omega
      · simp [skipWs, h]

theorem consFirst_eq_some {ch : Char} {o : Option (List Char × List Char)}
    {t r : List Char} (h : consFirst ch o = some (t, r)) :
    ∃ t', o = some (t', r) ∧ t = ch :: t' := by
  match o with
  | some (u, v) =>
      refine ⟨u, ?_, ?_⟩ <;> simp [consFirst] at h <;> simp [h.1, h.2]
  | none => simp [consFirst] at h

theorem parseStringBody_length_le :
    ∀ fuel cs t r, parseStringBody fuel cs = some (t, r) → t.length ≤ cs.length := by
  intro fuel
  induction fuel with
  | zero => intro cs t r h; simp [parseStringBody] at h
  | succ f ih =>
      intro cs t r h
      match cs with
      | [] => simp [parseStringBody] at h
      | c :: rest =>
          unfold parseStringBody at h
          repeat' split at h
          all_goals try exact Option.noConfusion h
          · simp only [Option.some.injEq, Prod.mk.injEq] at h
            simp [← h.1]
          all_goals
            obtain ⟨t', heq, hcons⟩ := consFirst_eq_some h
          all_goals
            have hlen := ih _ _ _ heq
          all_goals subst hcons
          all_goals simp only [List.length_cons] at *
          all_goals omega

theorem parseRun_value_str_length_lt :
    ∀ fuel cs t r, parseRun fuel .value cs = some (.v (.str t), r) → t.length < cs.length := by
  intro fuel cs t r h
  match fuel with
  | 0 => simp [parseRun] at h
  | f + 1 =>
      unfold parseRun at h
      split at h
      · simp at h
      · simp at h
      · simp at h
      · -- string literal branch
        rename_i heqsw
        split at h
        · rename_i tc r0 heq
          simp only [Option.some.injEq, Prod.mk.injEq, JOut.v.injEq, PyVal.str.injEq] at h
          obtain ⟨ht, hr⟩ := h
          have h1 := parseStringBody_length_le _ _ _ _ heq
          have h2 := skipWs_length_le cs
          rw [heqsw] at h2
          simp only [List.length_cons] at h2
          rw [← ht]
          show tc.length < cs.length
          omega
        · exact Option.noConfusion h
      · -- object branch
        split at h
        · simp at h
        · exact Option.noConfusion h
      · -- array branch
        split at h
        · simp at h
        · exact Option.noConfusion h
      · -- number branch
        split at h
        · split at h
          · simp at h
          · exact Option.noConfusion h
        · exact Option.noConfusion h
      · exact Option.noConfusion h

theorem parseJValue_str_length_lt :
    ∀ fuel cs t r, parseJValue fuel cs = some (.str t, r) → t.length < cs.length := by
  intro fuel cs t r h
  unfold parseJValue at h
  split at h
  · rename_i v r0 heq
    simp only [Option.some.injEq, Prod.mk.injEq] at h
    obtain ⟨hv, hr⟩ := h
    subst hv hr
    exact parseRun_value_str_length_lt _ _ _ _ heq
  · exact Option.noConfusion h

theorem parsePayload_str_length_lt {s t : String}
    (h : parsePayload s = some (.str t)) : t.length < s.length := by
  unfold parsePayload at h
  split at h
  · exact Option.noConfusion h
  · split at h
    · rename_i v r heq
      split at h
      · obtain rfl : v = .str t := by simpa using h
        exact parseJValue_str_length_lt _ _ _ _ heq
      · exact Option.noConfusion h
    · exact Option.noConfusion h

theorem payloadAsDictFuel_stable :
    ∀ fuel v, pyAdFuel v ≤ fuel → payloadAsDictFuel fuel v = payloadAsDict v := by
  intro fuel
  induction fuel using Nat.strong_induction_on with
  | _ fuel ih =>
      intro v hle
      match v with
      | .null => cases fuel <;> rfl
      | .bool b => cases fuel <;> rfl
      | .num q => cases fuel <;> rfl
      | .list xs => cases fuel <;> rfl
      | .dict d => cases fuel <;> rfl
      | .str s =>
          have hsl : s.length + 1 ≤ fuel := hle
          match fuel, hsl with
          | f + 1, _ =>
              show payloadAsDictFuel (f + 1) (.str s) = payloadAsDict (.str s)
              have hrhs : payloadAsDict (.str s) = payloadAsDictFuel (s.length + 1) (.str s) := rfl
              rw [hrhs]
              simp only [payloadAsDictFuel]
              cases hp : parsePayload s with
              | none => rfl
              | some v' =>
                  cases v' with
                  | dict d => rfl
                  | str t =>
                      have hlt := parsePayload_str_length_lt hp
                      have e1 : payloadAsDictFuel f (.str t) = payloadAsDict (.str t) := by
                        apply ih f (by omega)
                        simp [pyAdFuel]
                        omega
                      have e2 : payloadAsDictFuel s.length (.str t) = payloadAsDict (.str t) := by
                        apply ih s.length (by omega)
                        simp [pyAdFuel]
                        omega
                      show payloadAsDictFuel f (.str t) = payloadAsDictFuel s.length (.str t)
                      rw [e1, e2]
                  | null => rfl
                  | bool b => rfl
                  | num q => rfl
                  | list xs => rfl

/-- C3: the Payload Normalizer `_payload_as_dict` is total and returns a
mapping for every input: the recursion on re-encoded strings is bounded
(each decoding step strictly shrinks the string, so any fuel of at least
`pyAdFuel` computes the Python fixpoint); a native mapping is returned
as-is; `None` and any non-string, non-dict value give the empty mapping; a
JSON-object string and its double-encoding both decode to `{a: 1}`, and a
non-JSON string gives the empty mapping. -/
theorem c3_payload_normalizer :
    (∀ fuel v, pyAdFuel v ≤ fuel → payloadAsDictFuel fuel v = payloadAsDict v)
    ∧ (∀ d, payloadAsDict (.dict d) = d)
    ∧ payloadAsDict .null = []
    ∧ (∀ b, payloadAsDict (.bool b) = [])
    ∧ (∀ q, payloadAsDict (.num q) = [])
    ∧ (∀ xs, payloadAsDict (.list xs) = [])
    ∧ payloadAsDict (.str "\x7b\"a\":1\x7d") = [("a", .num 1)]
    ∧ payloadAsDict (.str "\"\x7b\\\"a\\\":1\x7d\"") = [("a", .num 1)]
    ∧ payloadAsDict (.str "not json") = [] := by
  refine ⟨payloadAsDictFuel_stable, fun d => rfl, rfl, fun b => rfl, fun q => rfl,
    fun xs => rfl, ?_, ?_, by decide⟩
  · decide
  · decide

/-- Witness for C3 at a concrete fuel and input. -/
theorem c3_payload_normalizer_witness :
    pyAdFuel (PyVal.str "not json") ≤ 20
    ∧ payloadAsDictFuel 20 (PyVal.str "not json") = payloadAsDict (PyVal.str "not json") :=
  ⟨by decide, c3_payload_normalizer.1 20 (PyVal.str "not json") (by decide)⟩

deriving instance DecidableEq for LoadSnapshot
deriving instance DecidableEq for Negotiation
deriving instance DecidableEq for PrefsSnapshot
deriving instance DecidableEq for CallRecord

instance {e a : Type} [DecidableEq e] [DecidableEq a] : DecidableEq (Except e a) := fun x y =>
  match x, y with
  | .ok u, .ok v =>
      match decEq u v with
      | isTrue h => isTrue (h ▸ rfl)
      | isFalse h => isFalse (fun hc => h (by cases hc; rfl))
  | .error u, .error v =>
      match decEq u v with
      | isTrue h => isTrue (h ▸ rfl)
      | isFalse h => isFalse (fun hc => h (by cases hc; rfl))
  | .ok _, .error _ => isFalse (fun hc => Except.noConfusion hc)
  | .error _, .ok _ => isFalse (fun hc => Except.noConfusion hc)

/-! ### Total mirrors of the builder's field resolution

These re-read the store through total functions (`.get` of a non-dict gives
`None` instead of raising); whenever the build succeeds they agree with the
values the build used, which the shape lemmas below prove. -/

/-- Total `.get`: `None` for a non-dict receiver. -/
def pyGetD (v : PyVal) (k : String) : PyVal :=
  match v with
  | .dict d => pyGet d k
  | _ => .null

/-- The parsed payload of the last event of key `k` for a call. -/
def lastPayloadOf (db : DB) (cid k : String) : PyVal :=
  lastPayload (getEventsByCallId db cid) k

/-- The eligibility value of the latest `verify_mc_result` payload. -/
def eligOf (db : DB) (cid : String) : PyVal :=
  pyGetD (pyOr (lastPayloadOf db cid "verify_mc_result") emptyDict) "eligible"

/-- The resolved negotiation dict (`neg` at main.py:470). -/
def negDictOf (db : DB) (cid : String) : PyVal :=
  pyOr (lastPayloadOf db cid "negotiation_complete") emptyDict

/-- The builder's `accepted` flag (main.py:499). -/
def acceptedOf (db : DB) (cid : String) : Bool :=
  isAccepted (pyGetD (negDictOf db cid) "accepted")

/-- The duration override from a `call_classified` payload (main.py:455-459). -/
def overrideFrom (vCls : PyVal) : Option Int :=
  match pyGetD (pyOr vCls emptyDict) "call_duration_seconds" with
  | .null => none
  | v =>
      match safeNCInt v with
      | some n => if 0 ≤ n then some n else none
      | none => none

/-- The duration override for a call. -/
def overrideOf (db : DB) (cid : String) : Option Int :=
  overrideFrom (lastPayloadOf db cid "call_classified")

/-- Timestamp of the first stored event of a call (empty if none). -/
def firstTsOf (db : DB) (cid : String) : String :=
  match getEventsByCallId db cid with
  | [] => ""
  | e :: _ => e.timestamp

/-- Timestamp of the last stored event of a call (empty if none). -/
def lastTsOf (db : DB) (cid : String) : String :=
  match getEventsByCallId db cid with
  | [] => ""
  | e :: rest => (rest.getLast?.getD e).timestamp

/-- Clear the two fields that derive from the first/last stored event
timestamps rather than from the grouped payloads. -/
def stripTiming (r : CallRecord) : CallRecord :=
  { r with timestamp := "", call_duration_seconds := 0 }

/-- `stripTiming` through the builder's result. -/
def stripResult (x : Except Unit (Option CallRecord)) :
    Except Unit (Option CallRecord) :=
  x.map (Option.map stripTiming)

/-- Delete every event that has a later stored event with the same call id
and event type (the claim C4 pruning). -/
def pruneLastPerType : List EventRow → List EventRow
  | [] => []
  | e :: rest =>
      if rest.any (fun e2 => e2.call_id == e.call_id && e2.event_type == e.event_type)
      then pruneLastPerType rest
      else e :: pruneLastPerType rest

/-- The outcome of a successfully built record. -/
def recOutcome (x : Except Unit (Option CallRecord)) : Option String :=
  match x with
  | .ok (some r) => some r.outcome
  | _ => none

/-- The negotiation `agreed` flag of a successfully built record. -/
def recAgreed (x : Except Unit (Option CallRecord)) : Option Bool :=
  match x with
  | .ok (some r) =>
      match r.negotiation with
      | some n => some n.agreed
      | none => none
  | _ => none

/-- Whether the build raised an exception. -/
def isBuildError (x : Except Unit (Option CallRecord)) : Bool :=
  match x with
  | .error _ => true
  | _ => false

/-! ### Shape lemmas: what a successful build returns -/

theorem statusOf_failed_iff (e : PyVal) : statusOf e = "failed" ↔ e = .bool false := by
  cases e with
  | bool b => cases b <;> simp [statusOf, pyIsFalse, pyIsTrue]
  | null => simp [statusOf, pyIsFalse, pyIsTrue]
  | num q => simp [statusOf, pyIsFalse, pyIsTrue]
  | str s => simp [statusOf, pyIsFalse, pyIsTrue]
  | list xs => simp [statusOf, pyIsFalse, pyIsTrue]
  | dict d => simp [statusOf, pyIsFalse, pyIsTrue]

theorem statusOf_verified_iff (e : PyVal) : statusOf e = "verified" ↔ e = .bool true := by
  cases e with
  | bool b => cases b <;> simp [statusOf, pyIsFalse, pyIsTrue]
  | null => simp [statusOf, pyIsFalse, pyIsTrue]
  | num q => simp [statusOf, pyIsFalse, pyIsTrue]
  | str s => simp [statusOf, pyIsFalse, pyIsTrue]
  | list xs => simp [statusOf, pyIsFalse, pyIsTrue]
  | dict d => simp [statusOf, pyIsFalse, pyIsTrue]

theorem statusOf_pending_iff (e : PyVal) :
    statusOf e = "pending" ↔ (e ≠ .bool false ∧ e ≠ .bool true) := by
  cases e with
  | bool b => cases b <;> simp [statusOf, pyIsFalse, pyIsTrue]
  | null => simp [statusOf, pyIsFalse, pyIsTrue]
  | num q => simp [statusOf, pyIsFalse, pyIsTrue]
  | str s => simp [statusOf, pyIsFalse, pyIsTrue]
  | list xs => simp [statusOf, pyIsFalse, pyIsTrue]
  | dict d => simp [statusOf, pyIsFalse, pyIsTrue]

theorem pyIsTrue_iff (e : PyVal) : pyIsTrue e = true ↔ e = .bool true := by
  cases e with
  | bool b => cases b <;> simp [pyIsTrue]
  | null => simp [pyIsTrue]
  | num q => simp [pyIsTrue]
  | str s => simp [pyIsTrue]
  | list xs => simp [pyIsTrue]
  | dict d => simp [pyIsTrue]

theorem stageA_ok {vCls vVerify : PyVal} {a : StageA}
    (h : stageA vCls vVerify = .ok a) :
    a.eligible = pyGetD (pyOr vVerify emptyDict) "eligible"
    ∧ a.durOverride = overrideFrom vCls := by
  simp only [stageA] at h
  split at h
  · rename_i dcls heqc
    split at h
    · rename_i dv heqv
      split at h
      · rename_i dcar heqcar
        simp only [Except.ok.injEq] at h
        subst h
        constructor
        · simp [pyGetD, heqv]
        · simp [overrideFrom, pyGetD, heqc]
      · exact Except.noConfusion h
    · exact Except.noConfusion h
  · exact Except.noConfusion h

theorem stageB_ok_outcome {elig vNeg vBest vSent vCls : PyVal} {b : StageB}
    (h : stageB elig vNeg vBest vSent vCls = .ok b) :
    b.outcome = outcomeTable elig (pyTruthy (pyOr vNeg emptyDict))
      (isAccepted (pyGetD (pyOr vNeg emptyDict) "accepted")) := by
  simp only [stageB] at h
  split at h
  · rename_i dn heqn
    repeat' split at h
    all_goals try exact Except.noConfusion h
    all_goals simp only [Except.ok.injEq] at h
    all_goals subst h
    all_goals rw [heqn]
    all_goals simp [pyGetD]
  · exact Except.noConfusion h

theorem pyOr_null (x : PyVal) : pyOr .null x = x := by simp [pyOr, pyTruthy]

theorem stageB_ok_agreed {elig vNeg vBest vSent vCls : PyVal} {b : StageB}
    (h : stageB elig vNeg vBest vSent vCls = .ok b) :
    ∀ n, b.negotiation = some n →
      n.agreed = isAccepted (pyGetD (pyOr vNeg emptyDict) "accepted") := by
  simp only [stageB] at h
  split at h
  · rename_i dn heqn
    split at h
    · exact Except.noConfusion h
    · rename_i lm heqlm
      split at h
      · exact Except.noConfusion h
      · rename_i items heqit
        split at h
        · exact Except.noConfusion h
        · rename_i st heqst
          simp only [Except.ok.injEq] at h
          subst h
          intro n hn
          rw [heqn]
          simp only [pyGetD]
          dsimp only at hn
          split at hn
          · simp only [Option.some.injEq] at hn
            subst hn
            rfl
          · exact Option.noConfusion hn
  · exact Except.noConfusion h

theorem stageB_ok_neg_of_empty {elig vNeg vBest vSent vCls : PyVal} {b : StageB}
    (h : stageB elig vNeg vBest vSent vCls = .ok b)
    (hfalse : pyTruthy (pyOr vNeg emptyDict) = false) :
    b.negotiation = b.load_matched.map
      (fun l => ⟨.num 0, l.loadboard_rate, [], none, false⟩) := by
  simp only [stageB] at h
  split at h
  · rename_i dn heqn
    rw [heqn] at hfalse
    have hdn : dn = [] := by
      cases dn with
      | nil => rfl
      | cons x xs => simp [pyTruthy] at hfalse
    subst hdn
    split at h
    · exact Except.noConfusion h
    · rename_i lm heqlm
      split at h
      · exact Except.noConfusion h
      · rename_i items heqit
        split at h
        · exact Except.noConfusion h
        · rename_i st heqst
          simp only [Except.ok.injEq] at h
          subst h
          have hitems : items = [] := by
            rw [show pyOr (pyGet ([] : List (String × PyVal)) "counter_offers")
              (PyVal.list []) = PyVal.list [] from by decide] at heqit
            simp [pyIterE] at heqit
            exact heqit
          subst hitems
          dsimp only
          cases lm with
          | none =>
              simp [show roundsCoerce (pyOr (pyGet ([] : List (String × PyVal))
                "negotiation_rounds") (PyVal.num 0)) = PyVal.num 0 from by decide,
                show isAccepted (pyGet ([] : List (String × PyVal)) "accepted")
                  = false from by decide,
                show pyTruthy (PyVal.dict []) = false from by decide]
          | some l =>
              simp only [show roundsCoerce (pyOr (pyGet ([] : List (String × PyVal))
                "negotiation_rounds") (PyVal.num 0)) = PyVal.num 0 from by decide,
                show isAccepted (pyGet ([] : List (String × PyVal)) "accepted")
                  = false from by decide,
                show pyTruthy (PyVal.dict ([] : List (String × PyVal)))
                  = false from by decide,
                show (pyGet ([] : List (String × PyVal)) "loadboard_rate")
                  = PyVal.null from by decide,
                show (pyGet ([] : List (String × PyVal)) "original_rate")
                  = PyVal.null from by decide,
                show safeNCFloat (pyOr (pyGet ([] : List (String × PyVal)) "final_price")
                  (pyGet ([] : List (String × PyVal)) "final_rate")) = none from by decide,
                pyOr_null, Option.isSome_some, Bool.or_false, List.map_nil]
              simp only [safeNCFloat, ite_self]
              by_cases hrate : l.loadboard_rate = 0
              · simp [hrate, Option.map]
              · simp [hrate, Option.map]
  · exact Except.noConfusion h

theorem buildFinish_fst_ok {db1 : DB} {cid f l : String} {a : StageA}
    {cname1 vNeg vBest vSent vCls : PyVal} {r : CallRecord}
    (h : (buildFinish db1 cid f l a cname1 vNeg vBest vSent vCls).1 = .ok (some r)) :
    r.verification_status = statusOf a.eligible
    ∧ r.fmcsa_verified = pyIsTrue a.eligible
    ∧ r.call_duration_seconds = a.durOverride.getD (computeSpan f l)
    ∧ ∃ b, stageB a.eligible vNeg vBest vSent vCls = .ok b
        ∧ r.outcome = b.outcome ∧ r.negotiation = b.negotiation
        ∧ r.load_matched = b.load_matched := by
  simp only [buildFinish] at h
  split at h
  · simp at h
  · rename_i b hb
    simp only [getCallSearchPrefsS] at h
    simp only [Except.ok.injEq, Option.some.injEq] at h
    subst h
    exact ⟨rfl, rfl, rfl, b, hb, rfl, rfl, rfl⟩

theorem buildNonEmpty_fst_ok {db : DB} {cid f l : String}
    {vVerify vNeg vBest vSent vCls : PyVal} {r : CallRecord}
    (h : (buildNonEmpty db cid f l vVerify vNeg vBest vSent vCls).1 = .ok (some r)) :
    ∃ a, stageA vCls vVerify = .ok a
      ∧ r.verification_status = statusOf a.eligible
      ∧ r.fmcsa_verified = pyIsTrue a.eligible
      ∧ r.call_duration_seconds = a.durOverride.getD (computeSpan f l)
      ∧ ∃ b, stageB a.eligible vNeg vBest vSent vCls = .ok b
          ∧ r.outcome = b.outcome ∧ r.negotiation = b.negotiation
          ∧ r.load_matched = b.load_matched := by
  simp only [buildNonEmpty] at h
  split at h
  · simp at h
  · rename_i a ha
    refine ⟨a, ha, ?_⟩
    split at h
    · split at h
      · simp at h
      · exact buildFinish_fst_ok h
    · exact buildFinish_fst_ok h

theorem buildRec_ok_shape {db : DB} {cid : String} {r : CallRecord}
    (h : buildRec db cid = .ok (some r)) :
    r.verification_status = statusOf (eligOf db cid)
    ∧ r.fmcsa_verified = pyIsTrue (eligOf db cid)
    ∧ r.outcome = outcomeTable (eligOf db cid) (pyTruthy (negDictOf db cid)) (acceptedOf db cid)
    ∧ r.call_duration_seconds
        = (overrideOf db cid).getD (computeSpan (firstTsOf db cid) (lastTsOf db cid))
    ∧ (∀ n, r.negotiation = some n → n.agreed = acceptedOf db cid)
    ∧ (pyTruthy (negDictOf db cid) = false →
        r.negotiation = r.load_matched.map
          (fun l => ⟨.num 0, l.loadboard_rate, [], none, false⟩)) := by
  unfold buildRec buildCallRecordS getEventsByCallIdS at h
  simp only [eligOf, negDictOf, acceptedOf, overrideOf, lastPayloadOf, firstTsOf, lastTsOf]
  rcases hE : getEventsByCallId db cid with _ | ⟨e0, rest⟩ <;> rw [hE] at h
  · simp at h
  · dsimp only at h
    obtain ⟨a, ha, hvs, hfm, hdur, b, hb, hout, hneg, hlm⟩ := buildNonEmpty_fst_ok h
    obtain ⟨haElig, haOv⟩ := stageA_ok ha
    refine ⟨?_, ?_, ?_, ?_, ?_, ?_⟩
    · rw [hvs, haElig]
    · rw [hfm, haElig]
    · rw [hout, stageB_ok_outcome hb, haElig]
    · rw [hdur, haOv]
    · intro n hn
      rw [hneg] at hn
      exact stageB_ok_agreed hb n hn
    · intro hfalse
      rw [hneg, hlm]
      exact stageB_ok_neg_of_empty hb hfalse

deriving instance DecidableEq for EventRow

theorem pyIsFalse_iff (e : PyVal) : pyIsFalse e = true ↔ e = .bool false := by
  cases e with
  | bool b => cases b <;> simp [pyIsFalse]
  | null => simp [pyIsFalse]
  | num q => simp [pyIsFalse]
  | str s => simp [pyIsFalse]
  | list xs => simp [pyIsFalse]
  | dict d => simp [pyIsFalse]

theorem pyIsFalse_eq_false {e : PyVal} (h : e ≠ .bool false) : pyIsFalse e = false := by
  cases hb : pyIsFalse e with
  | false => rfl
  | true => exact absurd ((pyIsFalse_iff e).mp hb) h

theorem isAccepted_iff (v : PyVal) :
    isAccepted v = true
      ↔ (v = .bool true ∨ v = .num 1 ∨ v = .str "true" ∨ v = .str "True") := by
  cases v with
  | bool b => cases b <;> simp [isAccepted]
  | null => simp [isAccepted]
  | num q => simp [isAccepted]
  | str s => simp [isAccepted, String.ext_iff]
  | list xs => simp [isAccepted]
  | dict d => simp [isAccepted]

theorem overrideOf_nonneg (db : DB) (cid : String) (n : Int)
    (h : overrideOf db cid = some n) : 0 ≤ n := by
  unfold overrideOf overrideFrom at h
  split at h
  · exact Option.noConfusion h
  · split at h
    · split at h
      · simp only [Option.some.injEq] at h
        subst h
        assumption
      · exact Option.noConfusion h
    · exact Option.noConfusion h

theorem computeSpan_nonneg (ts1 ts2 : String) : 0 ≤ computeSpan ts1 ts2 := by
  unfold computeSpan
  repeat' split
  all_goals simp [le_max_left]

theorem computeSpan_first_unparsable (ts1 ts2 : String)
    (hp : dtParse (replaceZ ts1) = none) : computeSpan ts1 ts2 = 0 := by
  cases hx : dtParse (replaceZ ts2) <;> simp [computeSpan, hx, hp]

theorem computeSpan_last_unparsable (ts1 ts2 : String)
    (hp : dtParse (replaceZ ts2) = none) : computeSpan ts1 ts2 = 0 := by
  simp [computeSpan, hp]

/-! ### Claim theorems -/

/-- Event store for the C2 witness. -/
def c2db : DB :=
  ⟨[⟨"c", "verify_mc_result", "\x7b\"eligible\": false\x7d", "2024-01-01T00:00:00Z"⟩], [], []⟩

/-- The record the builder returns for `c2db`. -/
def c2rec : CallRecord :=
  ⟨"c", "2024-01-01T00:00:00Z", .str "—", .str "Unknown", false, "failed", none, none,
    "failed_verification", "neutral", .null, none, 0, none, none⟩

/-- C2: for every record built from at least one event, `verification_status`
is `"failed"` iff the latest `verify_mc_result` payload's eligibility value
is exactly the boolean `false`, `"verified"` iff it is exactly the boolean
`true`, and `"pending"` in every other case (absent, non-boolean or
malformed payloads all make `eligOf` a non-boolean value); `fmcsa_verified`
is `true` iff eligibility is exactly the boolean `true`. -/
theorem c2_verification_status (db : DB) (cid : String) (r : CallRecord)
    (h : buildRec db cid = .ok (some r)) :
    (r.verification_status = "failed" ↔ eligOf db cid = .bool false)
    ∧ (r.verification_status = "verified" ↔ eligOf db cid = .bool true)
    ∧ (r.verification_status = "pending" ↔
        (eligOf db cid ≠ .bool false ∧ eligOf db cid ≠ .bool true))
    ∧ (r.fmcsa_verified = true ↔ eligOf db cid = .bool true) := by
  obtain ⟨hvs, hfm, _⟩ := buildRec_ok_shape h
  rw [hvs, hfm]
  exact ⟨statusOf_failed_iff _, statusOf_verified_iff _, statusOf_pending_iff _,
    pyIsTrue_iff _⟩

/-- Witness for C2: an explicitly false eligibility yields status `failed`. -/
theorem c2_verification_status_witness :
    eligOf c2db "c" = .bool false ∧ c2rec.verification_status = "failed" :=
  ⟨by decide, (c2_verification_status c2db "c" c2rec (by decide)).1.mpr (by decide)⟩

/-- Event store refuting C1 as stated: a `negotiation_complete` event is
stored but its payload is the empty JSON object. -/
def c1db : DB :=
  ⟨[⟨"c", "negotiation_complete", "\x7b\x7d", "2024-01-01T00:00:00Z"⟩], [], []⟩

/-- C1 counterexample: a negotiation event is present, eligibility is not
explicitly false and the negotiation is not accepted, yet the outcome is
`"dropped"`, where the claim's decision table demands `"no_deal"`. -/
theorem c1_counterexample :
    (c1db.events.any (fun e => keyOf e.event_type == "negotiation_complete")) = true
    ∧ eligOf c1db "c" ≠ .bool false
    ∧ acceptedOf c1db "c" = false
    ∧ recOutcome (buildRec c1db "c") = some "dropped"
    ∧ ("dropped" : String) ≠ "no_deal" :=
  ⟨by decide, by decide, by decide, by decide, by decide⟩

/-- Event store for the C1 witness (accepted negotiation). -/
def c1wdb : DB :=
  ⟨[⟨"c", "negotiation_complete",
      "\x7b\"accepted\": true, \"load_id\": \"L1\", \"final_price\": 1200\x7d",
      "2024-01-01T00:00:00Z"⟩], [], []⟩

/-- C1 (amended): for every built record the outcome equals the decision
table evaluated in order on (eligibility value, truthiness of the resolved
negotiation payload, accepted flag) — where a negotiation event whose latest
payload is absent, unparsable or an empty mapping counts as no negotiation —
so outcome is a pure function of that triple: eligibility explicitly false
gives `failed_verification`; otherwise a falsy resolved negotiation payload
gives `dropped`; otherwise `booked` if accepted, else `no_deal`. -/
theorem c1_outcome_decision (db : DB) (cid : String) (r : CallRecord)
    (h : buildRec db cid = .ok (some r)) :
    r.outcome = outcomeTable (eligOf db cid) (pyTruthy (negDictOf db cid)) (acceptedOf db cid)
    ∧ (eligOf db cid = .bool false → r.outcome = "failed_verification")
    ∧ (eligOf db cid ≠ .bool false → pyTruthy (negDictOf db cid) = false →
        r.outcome = "dropped")
    ∧ (eligOf db cid ≠ .bool false → pyTruthy (negDictOf db cid) = true →
        acceptedOf db cid = true → r.outcome = "booked")
    ∧ (eligOf db cid ≠ .bool false → pyTruthy (negDictOf db cid) = true →
        acceptedOf db cid = false → r.outcome = "no_deal") := by
  obtain ⟨_, _, hout, _, _, _⟩ := buildRec_ok_shape h
  refine ⟨hout, ?_, ?_, ?_, ?_⟩
  · intro he
    rw [hout, he]
    simp [outcomeTable, pyIsTrue, pyIsFalse]
  · intro he hn
    rw [hout, hn]
    simp [outcomeTable, pyIsFalse_eq_false he]
  · intro he hn ha
    rw [hout, hn, ha]
    simp [outcomeTable, pyIsFalse_eq_false he]
  · intro he hn ha
    rw [hout, hn, ha]
    simp [outcomeTable, pyIsFalse_eq_false he]

/-- Witness for C1 (amended): an accepted negotiation books the call. -/
theorem c1_outcome_decision_witness :
    recOutcome (buildRec c1wdb "c") = some "booked" := by
  have h : buildRec c1wdb "c" = .ok (some
      ⟨"c", "2024-01-01T00:00:00Z", .str "—", .str "Unknown", false, "pending",
        some ⟨.str "L1", .str "Unknown", .str "Unknown", .str "", .str "", .str "Van",
          1200, 0, .str "", 0, .str "", none, .str ""⟩,
        some ⟨.num 0, 0, [], some 1200, true⟩,
        "booked", "neutral", .null, none, 0, none, none⟩) := by decide
  have := (c1_outcome_decision c1wdb "c" _ h).2.2.2.1 (by decide) (by decide) (by decide)
  rw [h]
  exact congrArg some this

/-- Event store refuting C6 as stated: `accepted` is the number 1. -/
def c6db : DB :=
  ⟨[⟨"c", "negotiation_complete",
      "\x7b\"accepted\": 1, \"load_id\": \"L1\", \"final_price\": 1200\x7d",
      "2024-01-01T00:00:00Z"⟩], [], []⟩

/-- C6 counterexample: the payload's `accepted` field is the number 1 —
none of `True`, `"true"`, `"True"` — yet the record's negotiation is
agreed and the call is booked, because Python's `in (True, "true", "True")`
compares with `==` and `1 == True`. -/
theorem c6_counterexample :
    pyGetD (negDictOf c6db "c") "accepted" = .num 1
    ∧ PyVal.num 1 ≠ .bool true
    ∧ PyVal.num 1 ≠ .str "true"
    ∧ PyVal.num 1 ≠ .str "True"
    ∧ recAgreed (buildRec c6db "c") = some true
    ∧ recOutcome (buildRec c6db "c") = some "booked" :=
  ⟨by decide, by decide, by decide, by decide, by decide, by decide⟩

/-- Event store for the C6 witness (string `"true"`). -/
def c6wdb : DB :=
  ⟨[⟨"c", "negotiation_complete",
      "\x7b\"accepted\": \"true\", \"load_id\": \"L2\"\x7d",
      "2024-01-01T00:00:00Z"⟩], [], []⟩

/-- The negotiation of the C6 witness record. -/
def c6wneg : Negotiation := ⟨.num 0, 0, [], none, true⟩

/-- C6 (amended): the built record's `negotiation.agreed` is true exactly
when the payload's `accepted` value equals — by Python `==` — one of `True`,
`"true"`, `"True"`; since `1 == True` in Python, the numbers 1 and 1.0 are
also accepted, while absence and every other value (including `"yes"`)
are not. -/
theorem c6_accepted (db : DB) (cid : String) (r : CallRecord)
    (h : buildRec db cid = .ok (some r)) :
    (∀ n, r.negotiation = some n →
      n.agreed = isAccepted (pyGetD (negDictOf db cid) "accepted"))
    ∧ (∀ v, isAccepted v = true
        ↔ (v = .bool true ∨ v = .num 1 ∨ v = .str "true" ∨ v = .str "True")) := by
  obtain ⟨_, _, _, _, hagr, _⟩ := buildRec_ok_shape h
  exact ⟨hagr, isAccepted_iff⟩

/-- Witness for C6 (amended) at an explicit `"true"` string. -/
theorem c6_accepted_witness : c6wneg.agreed = isAccepted (pyGetD (negDictOf c6wdb "c") "accepted") := by
  have h : buildRec c6wdb "c" = .ok (some
      ⟨"c", "2024-01-01T00:00:00Z", .str "—", .str "Unknown", false, "pending",
        some ⟨.str "L2", .str "Unknown", .str "Unknown", .str "", .str "", .str "Van",
          0, 0, .str "", 0, .str "", none, .str ""⟩,
        some c6wneg, "booked", "neutral", .null, none, 0, none, none⟩) := by decide
  exact (c6_accepted c6wdb "c" _ h).1 c6wneg (by decide)

/-- Event store for the C7 witness: a 10-second event span with a reported
duration of 90. -/
def c7db : DB := ⟨[
  ⟨"c", "verify_mc_result", "\x7b\"eligible\": true\x7d", "2024-01-01T00:00:00Z"⟩,
  ⟨"c", "call_classified", "\x7b\"call_duration_seconds\": 90\x7d", "2024-01-01T00:00:10Z"⟩],
  [], []⟩

/-- The record the builder returns for `c7db`. -/
def c7rec : CallRecord :=
  ⟨"c", "2024-01-01T00:00:00Z", .str "—", .str "Unknown", true, "verified", none, none,
    "dropped", "neutral", .null, none, 90, none, none⟩

/-- C7: the duration of every built record is the whole-second difference
between the last and the first event timestamps, truncated and floored at
zero, with 0 when either timestamp is unparsable — except that an explicit
non-negative `call_duration_seconds` in the latest `call_classified` payload
overrides the computed span exactly. -/
theorem c7_duration (db : DB) (cid : String) (r : CallRecord)
    (h : buildRec db cid = .ok (some r)) :
    r.call_duration_seconds
      = (overrideOf db cid).getD (computeSpan (firstTsOf db cid) (lastTsOf db cid))
    ∧ (∀ n, overrideOf db cid = some n → r.call_duration_seconds = n ∧ 0 ≤ n)
    ∧ (overrideOf db cid = none →
        r.call_duration_seconds = computeSpan (firstTsOf db cid) (lastTsOf db cid))
    ∧ (∀ ts1 ts2, 0 ≤ computeSpan ts1 ts2)
    ∧ (∀ ts1 ts2, dtParse (replaceZ ts1) = none → computeSpan ts1 ts2 = 0)
    ∧ (∀ ts1 ts2, dtParse (replaceZ ts2) = none → computeSpan ts1 ts2 = 0) := by
  obtain ⟨_, _, _, hdur, _, _⟩ := buildRec_ok_shape h
  refine ⟨hdur, ?_, ?_, computeSpan_nonneg, computeSpan_first_unparsable,
    computeSpan_last_unparsable⟩
  · intro n hn
    rw [hdur, hn]
    exact ⟨rfl, overrideOf_nonneg db cid n hn⟩
  · intro hn
    rw [hdur, hn]
    rfl

/-- Witness for C7: reported 90 wins over the 10-second span. -/
theorem c7_duration_witness :
    overrideOf c7db "c" = some 90
    ∧ c7rec.call_duration_seconds = 90
    ∧ computeSpan (firstTsOf c7db "c") (lastTsOf c7db "c") = 10 :=
  ⟨by decide,
    ((c7_duration c7db "c" c7rec (by decide)).2.1 90 (by decide)).1,
    by decide⟩

/-- Event store for the C10 witness: eligible carrier, matched load, then a
`negotiation_complete` event with an empty payload. -/
def c10db : DB := ⟨[
  ⟨"c", "verify_mc_result", "\x7b\"eligible\": true\x7d", "2024-01-01T00:00:00Z"⟩,
  ⟨"c", "best_load_retrieved",
    "\x7b\"load_id\": \"L1\", \"origin\": \"LA\", \"destination\": \"NY\", \"loadboard_rate\": 1500\x7d",
    "2024-01-01T00:00:10Z"⟩,
  ⟨"c", "negotiation_complete", "\x7b\x7d", "2024-01-01T00:00:20Z"⟩], [], []⟩

/-- C10: when the latest `negotiation_complete` payload parses to an empty
mapping or fails to parse, the builder chooses the outcome as if no
negotiation event existed — `"dropped"` whenever eligibility is not
explicitly false — while, whenever a load was matched, a negotiation object
with `rounds = 0`, `agreed = false`, no counter-offers, no final rate and
the matched load's rate as initial offer is still attached. -/
theorem c10_empty_negotiation (db : DB) (cid : String) (r : CallRecord) (e : EventRow)
    (h : buildRec db cid = .ok (some r))
    (hev : lastWithKey "negotiation_complete" (getEventsByCallId db cid) = some e)
    (hpl : parsePayload e.payload = some (.dict []) ∨ parsePayload e.payload = none)
    (helig : eligOf db cid ≠ .bool false) :
    r.outcome = "dropped"
    ∧ r.negotiation = r.load_matched.map
        (fun l => ⟨.num 0, l.loadboard_rate, [], none, false⟩) := by
  have hnegv : negDictOf db cid = emptyDict := by
    unfold negDictOf lastPayloadOf lastPayload
    rw [hev]
    show pyOr ((parsePayload e.payload).getD .null) emptyDict = emptyDict
    rcases hpl with hp | hp <;> rw [hp] <;> decide
  have hfalse : pyTruthy (negDictOf db cid) = false := by rw [hnegv]; decide
  obtain ⟨_, _, hout, _, _, hmap⟩ := buildRec_ok_shape h
  refine ⟨?_, hmap hfalse⟩
  rw [hout, hfalse]
  simp [outcomeTable, pyIsFalse_eq_false helig]

/-- Witness for C10: empty negotiation payload with a matched load. -/
theorem c10_empty_negotiation_witness :
    recOutcome (buildRec c10db "c") = some "dropped"
    ∧ recAgreed (buildRec c10db "c") = some false := by
  have h : buildRec c10db "c" = .ok (some
      ⟨"c", "2024-01-01T00:00:00Z", .str "—", .str "Unknown", true, "verified",
        some ⟨.str "L1", .str "LA", .str "NY", .str "", .str "", .str "Van",
          1500, 0, .str "", 0, .str "", none, .str ""⟩,
        some ⟨.num 0, 1500, [], none, false⟩,
        "dropped", "neutral", .null, none, 20, none, none⟩) := by decide
  have hc := c10_empty_negotiation c10db "c" _
    ⟨"c", "negotiation_complete", "\x7b\x7d", "2024-01-01T00:00:20Z"⟩
    h (by decide) (Or.inl (by decide)) (by decide)
  refine ⟨?_, by decide⟩
  rw [h]
  exact congrArg some hc.1

theorem getCarrierProfileS_snd (db : DB) (k : PyVal) :
    (getCarrierProfileS db k).2 = db := by
  cases k <;> rfl

theorem buildFinish_snd (db1 : DB) (cid firstTs lastTs : String) (a : StageA)
    (cname1 vNeg vBest vSent vCls : PyVal) :
    (buildFinish db1 cid firstTs lastTs a cname1 vNeg vBest vSent vCls).2 = db1 := by
  unfold buildFinish
  split
  · rfl
  · rfl

theorem buildNonEmpty_snd (db : DB) (cid firstTs lastTs : String)
    (vVerify vNeg vBest vSent vCls : PyVal) :
    (buildNonEmpty db cid firstTs lastTs vVerify vNeg vBest vSent vCls).2 = db := by
  unfold buildNonEmpty
  split
  · rfl
  · split
    · split
      · rename_i heq
        have h2 := congrArg Prod.snd heq
        rw [getCarrierProfileS_snd] at h2
        exact h2.symm ▸ rfl
      · rename_i heq
        have h2 := congrArg Prod.snd heq
        rw [getCarrierProfileS_snd] at h2
        dsimp only at h2
        rw [← h2, buildFinish_snd]
    · rw [buildFinish_snd]

/-- C9: the builder performs no writes — the store after `build(call_id)` is
the store before it, for every call id, event store, carrier-profile store
and preferences store — and hence a second invocation on the resulting
store returns the identical record: the builder is deterministic and
idempotent. -/
theorem c9_idempotent_no_writes (db : DB) (cid : String) :
    (buildCallRecordS db cid).2 = db
    ∧ buildRec (buildCallRecordS db cid).2 cid = buildRec db cid := by
  have h : (buildCallRecordS db cid).2 = db := by
    unfold buildCallRecordS getEventsByCallIdS
    dsimp only
    split
    · rfl
    · exact buildNonEmpty_snd db cid _ _ _ _ _ _ _
  exact ⟨h, by rw [h]⟩

/-- C8 counterexample: a truthy non-string label — the number 5 — makes
`_normalize_sentiment` call `.strip()` on a non-string and raise
`AttributeError` (modelled `.error ()`): the classifier is not total over
raw labels of arbitrary shape. -/
theorem c8_counterexample :
    pyTruthy (.num 5) = true ∧ normalizeSentimentE (.num 5) = .error () :=
  ⟨by decide, by decide⟩

/-- C8 (amended): restricted to falsy values and string labels the
classifier is deterministic and matches the ordered policy — falsy input
gives `neutral`; a non-empty string is trimmed, lower-cased and classified
by the synonym table then the substring fallbacks, always landing in
\x7bpositive, neutral, negative, frustrated\x7d — with the spec's examples
`"Really Positive" ↦ positive`, `"" ↦ neutral`, `"impatient" ↦ frustrated`,
`"mildly negative vibe" ↦ negative`; but on truthy non-string input it
raises instead of returning `neutral`. -/
theorem c8_sentiment_classifier :
    (∀ raw, pyTruthy raw = false → normalizeSentimentE raw = .ok "neutral")
    ∧ (∀ s, normalizeSentimentE (.str s)
        = if s = "" then .ok "neutral" else .ok (classifySent s))
    ∧ (∀ s, classifySent s = "positive" ∨ classifySent s = "neutral"
        ∨ classifySent s = "negative" ∨ classifySent s = "frustrated")
    ∧ normalizeSentimentE (.str "Really Positive") = .ok "positive"
    ∧ normalizeSentimentE (.str "") = .ok "neutral"
    ∧ normalizeSentimentE (.str "impatient") = .ok "frustrated"
    ∧ normalizeSentimentE (.str "mildly negative vibe") = .ok "negative" := by
  refine ⟨?_, ?_, ?_, by decide, by decide, by decide, by decide⟩
  · intro raw h
    simp [normalizeSentimentE, h]
  · intro s
    by_cases h : s = "" <;> simp [normalizeSentimentE, pyTruthy, h]
  · intro s
    simp only [classifySent]
    repeat' split <;> (try casesm* _ ∨ _) <;> simp_all

theorem payloadAsDict_decode {s : String} {v : PyVal}
    (h : parsePayload s = some v) :
    payloadAsDict (.str s) = payloadAsDict v := by
  have h0 : payloadAsDict (.str s) = payloadAsDictFuel (s.length + 1) (.str s) := rfl
  rw [h0, payloadAsDictFuel, h]
  cases v with
  | str t => exact payloadAsDictFuel_stable s.length (.str t) (parsePayload_str_length_lt h)
  | null => rfl
  | bool b => rfl
  | num q => rfl
  | list xs => rfl
  | dict d => rfl

theorem stageB_sent_congr (elig vNeg vBest vCls : PyVal) {s t : PyVal}
    (h : payloadAsDict s = payloadAsDict t) :
    stageB elig vNeg vBest s vCls = stageB elig vNeg vBest t vCls := by
  unfold stageB
  simp only [h]

theorem buildFinish_sent_congr (db1 : DB) (cid firstTs lastTs : String) (a : StageA)
    (cname1 vNeg vBest vCls : PyVal) {s t : PyVal}
    (h : payloadAsDict s = payloadAsDict t) :
    buildFinish db1 cid firstTs lastTs a cname1 vNeg vBest s vCls
      = buildFinish db1 cid firstTs lastTs a cname1 vNeg vBest t vCls := by
  unfold buildFinish
  rw [stageB_sent_congr a.eligible vNeg vBest vCls h]

theorem buildNonEmpty_sent_congr (db : DB) (cid firstTs lastTs : String)
    (vVerify vNeg vBest vCls : PyVal) {s t : PyVal}
    (h : payloadAsDict s = payloadAsDict t) :
    buildNonEmpty db cid firstTs lastTs vVerify vNeg vBest s vCls
      = buildNonEmpty db cid firstTs lastTs vVerify vNeg vBest t vCls := by
  unfold buildNonEmpty
  simp only [buildFinish_sent_congr _ _ _ _ _ _ _ _ _ h]

/-- A best_load payload stored as a JSON object. -/
def c5payload1 : String := "\x7b\"load_id\": \"L1\"\x7d"

/-- The same payload doubly JSON-encoded: a JSON string whose content is
`c5payload1`. -/
def c5payload2 : String := "\"\x7b\\\"load_id\\\": \\\"L1\\\"\x7d\""

/-- Event store with the doubly-encoded best_load payload. -/
def dbC5a : DB :=
  ⟨[⟨"c", "best_load_retrieved", c5payload2, "2024-01-01T00:00:00Z"⟩], [], []⟩

/-- Event store with the natively-encoded best_load payload. -/
def dbC5b : DB :=
  ⟨[⟨"c", "best_load_retrieved", c5payload1, "2024-01-01T00:00:00Z"⟩], [], []⟩

/-- C5 counterexample: one JSON decode of the doubly-encoded best_load
payload yields the single-encoded text, and the §4.1 normalizer maps both
encodings to the same mapping — yet the builder raises on the
doubly-encoded store (a string reaches `.get`, `AttributeError`) while the
single-encoded store builds a record: `best_load_retrieved` payloads are
*not* normalized via §4.1 before field resolution. -/
theorem c5_counterexample :
    parsePayload c5payload2 = some (.str c5payload1)
    ∧ payloadAsDict (.str c5payload2) = payloadAsDict (.str c5payload1)
    ∧ isBuildError (buildRec dbC5a "c") = true
    ∧ recOutcome (buildRec dbC5b "c") = some "dropped" :=
  ⟨by decide, by decide, by decide, by decide⟩

/-- C5 (amended): only the sentiment slots are read through the §4.1
Payload Normalizer (`_payload_as_dict`, main.py:514-516): the normalizer
strips any number of string-encoding layers (`parsePayload s = some v`
makes `.str s` and `v` normalize alike), and the record builder is
invariant under replacing the grouped `sentiment_classified` payload by its
once-decoded value — for the other four slots the payload is parsed exactly
once, and a doubly-encoded payload can change the result (see the
counterexample). -/
theorem c5_payload_normalization (s : String) (v : PyVal)
    (h : parsePayload s = some v) :
    payloadAsDict (.str s) = payloadAsDict v
    ∧ (∀ elig vNeg vBest vCls, stageB elig vNeg vBest (.str s) vCls
        = stageB elig vNeg vBest v vCls)
    ∧ (∀ db cid firstTs lastTs vVerify vNeg vBest vCls,
        buildNonEmpty db cid firstTs lastTs vVerify vNeg vBest (.str s) vCls
          = buildNonEmpty db cid firstTs lastTs vVerify vNeg vBest v vCls) := by
  have hd := payloadAsDict_decode h
  exact ⟨hd,
    fun elig vNeg vBest vCls => stageB_sent_congr elig vNeg vBest vCls hd,
    fun db cid f l vV vN vB vC => buildNonEmpty_sent_congr db cid f l vV vN vB vC hd⟩

/-- Witness for C5 (amended) at the doubly-encoded payload. -/
theorem c5_payload_normalization_witness :
    parsePayload c5payload2 = some (.str c5payload1)
    ∧ payloadAsDict (.str c5payload2) = payloadAsDict (.str c5payload1) :=
  ⟨by decide, (c5_payload_normalization c5payload2 (.str c5payload1) (by decide)).1⟩

theorem pruneLastPerType_eq_nil_iff : ∀ l : List EventRow,
    pruneLastPerType l = [] ↔ l = [] := by
  intro l
  induction l with
  | nil => simp [pruneLastPerType]
  | cons e rest ih =>
      simp only [pruneLastPerType]
      split
      · rename_i hany
        constructor
        · intro hnil
          have : rest = [] := ih.mp hnil
          subst this
          simp at hany
        · intro h
          exact absurd h (List.cons_ne_nil e rest)
      · simp

theorem lastWithKey_isSome_of_mem {k : String} {l : List EventRow} {e2 : EventRow}
    (h : e2 ∈ l) (hk : (keyOf e2.event_type == k) = true) :
    (lastWithKey k l).isSome = true := by
  induction l with
  | nil => cases h
  | cons e rest ih =>
      simp only [lastWithKey]
      cases hrest : lastWithKey k rest with
      | some r => rfl
      | none =>
          rcases List.mem_cons.mp h with he | hmem
          · subst he
            simp [hk]
          · have := ih hmem
            rw [hrest] at this
            simp at this

theorem lastWithKey_prune (k : String) : ∀ l : List EventRow,
    lastWithKey k (pruneLastPerType l) = lastWithKey k l := by
  intro l
  induction l with
  | nil => rfl
  | cons e rest ih =>
      simp only [pruneLastPerType]
      split
      · rename_i hany
        rw [ih]
        simp only [lastWithKey]
        cases hrest : lastWithKey k rest with
        | some r => rfl
        | none =>
            obtain ⟨e2, hmem, hq⟩ := List.any_eq_true.mp hany
            have htype : e2.event_type = e.event_type :=
              eq_of_beq (Bool.and_elim_right hq)
            by_cases hk : (keyOf e.event_type == k) = true
            · have hk2 : (keyOf e2.event_type == k) = true := by rw [htype]; exact hk
              have := lastWithKey_isSome_of_mem hmem hk2
              rw [hrest] at this
              simp at this
            · simp [hk]
      · simp only [lastWithKey, ih]

theorem pruneLastPerType_filter (cid : String) : ∀ l : List EventRow,
    (pruneLastPerType l).filter (fun e => e.call_id == cid)
      = pruneLastPerType (l.filter (fun e => e.call_id == cid)) := by
  intro l
  induction l with
  | nil => rfl
  | cons e rest ih =>
      simp only [pruneLastPerType]
      by_cases hp : (e.call_id == cid) = true
      · cases hany : rest.any
            (fun e2 => e2.call_id == e.call_id && e2.event_type == e.event_type) with
        | true =>
            simp only [hany, if_true]
            rw [ih]
            have hfe : (e :: rest).filter (fun e => e.call_id == cid)
                = e :: rest.filter (fun e => e.call_id == cid) := by
              simp [List.filter_cons, hp]
            rw [hfe]
            simp only [pruneLastPerType]
            obtain ⟨e2, hmem, hq⟩ := List.any_eq_true.mp hany
            have hany2 : (rest.filter (fun e => e.call_id == cid)).any
                (fun e2 => e2.call_id == e.call_id && e2.event_type == e.event_type)
                  = true := by
              refine List.any_eq_true.mpr ⟨e2, ?_, hq⟩
              refine List.mem_filter.mpr ⟨hmem, ?_⟩
              have hcc : e2.call_id = e.call_id := eq_of_beq (Bool.and_elim_left hq)
              have hec : e.call_id = cid := eq_of_beq hp
              simp [hcc, hec]
            rw [hany2]
            simp
        | false =>
            rw [if_neg Bool.false_ne_true]
            have hfe : (e :: rest).filter (fun e => e.call_id == cid)
                = e :: rest.filter (fun e => e.call_id == cid) := by
              simp [List.filter_cons, hp]
            rw [hfe]
            simp only [pruneLastPerType]
            have hany2 : (rest.filter (fun e => e.call_id == cid)).any
                (fun e2 => e2.call_id == e.call_id && e2.event_type == e.event_type)
                  = false := by
              rw [List.any_eq_false]
              intro e2 hmem2
              have hmem : e2 ∈ rest := (List.mem_filter.mp hmem2).1
              have := List.any_eq_false.mp hany e2 hmem
              simpa using this
            rw [hany2, if_neg Bool.false_ne_true]
            rw [List.filter_cons, if_pos hp, ih]
      · cases hany : rest.any
            (fun e2 => e2.call_id == e.call_id && e2.event_type == e.event_type) with
        | true =>
            simp only [hany, if_true]
            rw [ih]
            have hfe : (e :: rest).filter (fun e => e.call_id == cid)
                = rest.filter (fun e => e.call_id == cid) := by
              simp [List.filter_cons, hp]
            rw [hfe]
        | false =>
            rw [if_neg Bool.false_ne_true]
            rw [List.filter_cons, if_neg hp, ih]
            rw [List.filter_cons, if_neg hp]

theorem lastPayload_prune (l : List EventRow) (k : String) :
    lastPayload (pruneLastPerType l) k = lastPayload l k := by
  unfold lastPayload
  rw [lastWithKey_prune]

theorem buildFinish_strip_congr (ev1 ev2 : List EventRow)
    (P Q : List (String × List (String × PyVal)))
    (cid f1 l1 f2 l2 : String) (a : StageA)
    (cname1 vNeg vBest vSent vCls : PyVal) :
    stripResult (buildFinish ⟨ev1, P, Q⟩ cid f1 l1 a cname1 vNeg vBest vSent vCls).1
      = stripResult (buildFinish ⟨ev2, P, Q⟩ cid f2 l2 a cname1 vNeg vBest vSent vCls).1 := by
  unfold buildFinish
  cases stageB a.eligible vNeg vBest vSent vCls with
  | error u => rfl
  | ok b =>
      dsimp only [getCallSearchPrefsS]
      simp [stripResult, stripTiming, Except.map, Option.map]

theorem buildNonEmpty_strip_congr (ev1 ev2 : List EventRow)
    (P Q : List (String × List (String × PyVal)))
    (cid f1 l1 f2 l2 : String) (vVerify vNeg vBest vSent vCls : PyVal) :
    stripResult (buildNonEmpty ⟨ev1, P, Q⟩ cid f1 l1 vVerify vNeg vBest vSent vCls).1
      = stripResult (buildNonEmpty ⟨ev2, P, Q⟩ cid f2 l2 vVerify vNeg vBest vSent vCls).1 := by
  unfold buildNonEmpty
  cases stageA vCls vVerify with
  | error u => rfl
  | ok a =>
      dsimp only
      cases hm : a.mcNumber <;> dsimp only [getCarrierProfileS] <;> split <;>
        first
          | rfl
          | exact buildFinish_strip_congr ev1 ev2 P Q cid f1 l1 f2 l2 a _ vNeg vBest vSent vCls

/-- An eligibility event stored first, with the later timestamp. -/
def c4e1 : EventRow :=
  ⟨"c", "verify_mc_result", "\x7b\"eligible\": true\x7d", "2024-01-01T00:10:00Z"⟩

/-- An eligibility event stored second, with the earlier timestamp. -/
def c4e2 : EventRow :=
  ⟨"c", "verify_mc_result", "\x7b\"eligible\": false\x7d", "2024-01-01T00:00:00Z"⟩

/-- Event store with two `verify_mc_result` events for the same call. -/
def c4db : DB := ⟨[c4e1, c4e2], [], []⟩

/-- The record built from the full `c4db` event sequence. -/
def c4r1 : CallRecord :=
  ⟨"c", "2024-01-01T00:10:00Z", .str "—", .str "Unknown", false, "failed", none, none,
    "failed_verification", "neutral", .null, none, 0, none, none⟩

/-- The record built after pruning `c4db` to the last event per type. -/
def c4r2 : CallRecord :=
  ⟨"c", "2024-01-01T00:00:00Z", .str "—", .str "Unknown", false, "failed", none, none,
    "failed_verification", "neutral", .null, none, 0, none, none⟩

/-- C4 counterexample: deleting the non-last `verify_mc_result` event
changes the built record — its `timestamp` field comes from the first
*stored* event, which the pruning removes — so the records are not equal as
the claim demands (they agree only after the two timing fields are
cleared).  The payload resolution itself does follow store order, not
timestamps: the stored-later but earlier-timestamped event's `eligible:
false` decides `verification_status = "failed"`. -/
theorem c4_counterexample :
    pruneLastPerType c4db.events = [c4e2]
    ∧ computeSpan c4e2.timestamp c4e1.timestamp = 600
    ∧ buildRec c4db "c" = .ok (some c4r1)
    ∧ buildRec ⟨pruneLastPerType c4db.events, [], []⟩ "c" = .ok (some c4r2)
    ∧ c4r1 ≠ c4r2
    ∧ c4r1.verification_status = "failed"
    ∧ stripTiming c4r1 = stripTiming c4r2 :=
  ⟨by decide, by decide, by decide, by decide, by decide, by decide, by decide⟩

/-- C4 (amended): last-write-wins by store order holds for everything
except the two timing fields.  For every call id, pruning the event store
to the last stored event of each (call id, event type) pair leaves the
built record unchanged once `timestamp` and `call_duration_seconds` — the
fields derived from the first/last stored event of the call, not from the
grouped payloads — are cleared; the retained event per type is the last by
store-assigned order, regardless of timestamps. -/
theorem c4_last_write_wins (db : DB) (cid : String) :
    stripResult (buildRec ⟨pruneLastPerType db.events, db.profiles, db.prefsTab⟩ cid)
      = stripResult (buildRec db cid) := by
  have hev : getEventsByCallId ⟨pruneLastPerType db.events, db.profiles, db.prefsTab⟩ cid
      = pruneLastPerType (getEventsByCallId db cid) :=
    pruneLastPerType_filter cid db.events
  unfold buildRec buildCallRecordS getEventsByCallIdS
  dsimp only
  rw [hev]
  cases hl : getEventsByCallId db cid with
  | nil => rfl
  | cons e0 rest =>
      cases hp : pruneLastPerType (e0 :: rest) with
      | nil =>
          exact absurd ((pruneLastPerType_eq_nil_iff (e0 :: rest)).mp hp)
            (List.cons_ne_nil e0 rest)
      | cons p0 prest =>
          dsimp only
          have hlp : ∀ k, lastPayload (p0 :: prest) k = lastPayload (e0 :: rest) k := by
            intro k
            rw [← hp, lastPayload_prune]
          rw [hlp, hlp, hlp, hlp, hlp]
          exact buildNonEmpty_strip_congr (pruneLastPerType db.events) db.events
            db.profiles db.prefsTab cid p0.timestamp ((prest.getLast?.getD p0).timestamp)
            e0.timestamp ((rest.getLast?.getD e0).timestamp) _ _ _ _ _
